import Mathlib

/-!
# Memory Scramble board — verification development

Shallow embedding of the two `Board` implementations of the Memory Scramble
repository and proofs about them:

* namespace `Part001` embeds the variant in `src/unnamed/part_001`
  (per-player `previousCards` / `previousMatched` / `currentCards` records,
  parallel `cards` / `faceUp` / `controlledBy` arrays);
* namespace `BoardTs` embeds the variant in `src/src/board.ts`
  (card spaces with an `up`/`down` state, per-player `controlled` sets).

Asynchronous waiting (position waiters, change watchers, the mutex) is
scheduler plumbing: a `flip` that would park is modelled by the distinguished
`wait` outcome, and the wake-up bookkeeping (`notifyWaitingPlayers`,
`notifyChange`, listener arrays) is not modelled beyond the change counter
that `board.ts` keeps.  File reading is modelled by passing the file's text
content to `parseFromFile`.

Node's `assert` throws on failure; a failing assertion is modelled as an
error outcome carrying the mutated state, exactly as the thrown exception
leaves the mutated `this` behind.
-/

/-! ## Generic list helpers -/

namespace ScrambleUtil

/-! ## Characters and strings

`isWs` models the JavaScript `\s` character class on the code points the
repository can meet in board files and card values. -/

def isWs (c : Char) : Bool :=
  c = ' ' ∨ c = '\t' ∨ c = '\n' ∨ c = '\r' ∨ c = '\x0b' ∨ c = '\x0c'

def isDigitCh (c : Char) : Bool := '0' ≤ c ∧ c ≤ '9'

/-- `content.split(/\r?\n/)` on the character list: break at `'\n'`, also
consuming a `'\r'` that immediately precedes the `'\n'`. -/
def splitCh : List Char → List (List Char)
  | [] => [[]]
  | '\r' :: '\n' :: rest => [] :: splitCh rest
  | '\n' :: rest => [] :: splitCh rest
  | c :: rest =>
    match splitCh rest with
    | [] => [[c]]
    | h :: t => (c :: h) :: t

def splitLines (s : String) : List String :=
  (splitCh s.data).map (fun l => ⟨l⟩)

/-- `String.prototype.trim`: drop whitespace at both ends. -/
def trimCh (l : List Char) : List Char :=
  ((l.dropWhile isWs).reverse.dropWhile isWs).reverse

def strTrim (s : String) : String := ⟨trimCh s.data⟩

def containsWsCh (l : List Char) : Bool := l.any isWs

/-- Join lines with LF separators; `mkFile ls` is the text file whose lines
are `ls`. -/
def joinLines : List (List Char) → List Char
  | [] => []
  | [l] => l
  | l :: rest => l ++ '\n' :: joinLines rest

def mkFile (ls : List String) : String := ⟨joinLines (ls.map String.data)⟩

/-- `parseInt` on an all-digit string. -/
def digitsToNat (l : List Char) : Nat :=
  l.foldl (fun n c => n * 10 + (c.toNat - '0'.toNat)) 0

/-- The `^(\d+)x(\d+)$` dimension pattern: a maximal run of digits, a literal
`x`, and a run of digits reaching the end of the string. -/
def parseHeader (s : String) : Option (Nat × Nat) :=
  let ds := s.data.takeWhile isDigitCh
  match s.data.drop ds.length with
  | 'x' :: ds2 =>
    if ds ≠ [] ∧ ds2 ≠ [] ∧ ds2.all isDigitCh then
      some (digitsToNat ds, digitsToNat ds2)
    else none
  | _ => none

end ScrambleUtil

/-! ## `src/unnamed/part_001` — the variant with per-player move records -/

namespace Part001

open ScrambleUtil

/-- `interface PlayerState` of `part_001`. -/
structure PlayerState where
  previousCards : List Nat
  previousMatched : Bool
  currentCards : List Nat
deriving DecidableEq

/-- The representation of `class Board` in `part_001`.  The `waitingPlayers`
and `watchers` queues hold only wake handles and are not modelled. -/
structure Board where
  rows : Nat
  columns : Nat
  cards : List (Option String)
  faceUp : List Bool
  controlledBy : List (Option String)
  playerStates : List (String × PlayerState)
deriving DecidableEq

/-- `Map.get` on the player table. -/
def lookupPS : List (String × PlayerState) → String → Option PlayerState
  | [], _ => none
  | (q, ps) :: rest, pid => if q = pid then some ps else lookupPS rest pid

/-- `Map.set` on the player table: replace in place, else append. -/
def setPS : List (String × PlayerState) → String → PlayerState → List (String × PlayerState)
  | [], pid, ps => [(pid, ps)]
  | (q, old) :: rest, pid, ps =>
    if q = pid then (q, ps) :: rest else (q, old) :: setPS rest pid ps

/-- One character of JS: `card !== null && card.length > 0 && !/\s/.test(card)`. -/
def validCardValue (v : String) : Bool := v.data ≠ [] ∧ ¬ containsWsCh v.data

/-- The `checkRep` conditions for a single cell: a present card has a valid
value; an empty space is neither face up nor controlled; a controlled
position is face up and holds a card. -/
def cellOk (b : Board) (i : Nat) : Bool :=
  (match b.cards.getD i none with
   | some v => validCardValue v
   | none => !b.faceUp.getD i false && (b.controlledBy.getD i none == none)) &&
  ((b.controlledBy.getD i none == none) ||
    (b.faceUp.getD i false && !(b.cards.getD i none == none)))

/-- `checkRep` of `part_001` as a boolean predicate. -/
def checkRep (b : Board) : Bool :=
  let size := b.rows * b.columns
  decide (0 < b.rows) && decide (0 < b.columns) &&
  (b.cards.length == size) && (b.faceUp.length == size) &&
  (b.controlledBy.length == size) &&
  ((List.range size).all fun i => cellOk b i) &&
  (b.playerStates.all fun e => decide (e.2.currentCards.length ≤ 2))

/-- The `SPOT` that `getBoardState` prints for position `i`. -/
def spotAt (b : Board) (playerId : String) (i : Nat) : String :=
  match b.cards.getD i none with
  | none => "none"
  | some card =>
    if b.faceUp.getD i false = false then "down"
    else if b.controlledBy.getD i none = some playerId then "my " ++ card
    else "up " ++ card

/-- `getBoardState`: dimension line then one spot per cell, each line
terminated by `\n` (including the last). -/
def getBoardState (b : Board) (playerId : String) : String :=
  toString b.rows ++ "x" ++ toString b.columns ++ "\n" ++
    String.join ((List.range b.cards.length).map fun i => spotAt b playerId i ++ "\n")

/-- Rule 3-A loop: remove every still-present previous card (also clearing
face and controller). -/
def removePrev (b : Board) (poss : List Nat) : Board :=
  poss.foldl
    (fun b pos =>
      if b.cards.getD pos none ≠ none then
        { b with
          cards := b.cards.set pos none
          faceUp := b.faceUp.set pos false
          controlledBy := b.controlledBy.set pos none }
      else b)
    b

/-- Rule 3-B loop: turn face down every previous card that is still present,
face up, and uncontrolled. -/
def flipDownPrev (b : Board) (poss : List Nat) : Board :=
  poss.foldl
    (fun b pos =>
      if b.cards.getD pos none ≠ none ∧ b.faceUp.getD pos false = true ∧
          b.controlledBy.getD pos none = none then
        { b with faceUp := b.faceUp.set pos false }
      else b)
    b

/-- The rule-3 cleanup block at the top of `flipCard` (runs when the player
controls no card and has a recorded previous move). -/
def cleanup (b : Board) (ps : PlayerState) : Board × PlayerState :=
  let b :=
    if ps.previousMatched then removePrev b ps.previousCards
    else flipDownPrev b ps.previousCards
  (b, { ps with previousCards := [], previousMatched := false })

inductive FlipErr where
  | invalidCoordinates
  | noCard
  | cardControlled
  | tooManyCards
  | assertionFailed
deriving DecidableEq

inductive FlipOutcome where
  | ok
  | wait
  | err (e : FlipErr)
deriving DecidableEq

/-- Store the player's (possibly mutated) state object back into the table. -/
def writePS (b : Board) (pid : String) (ps : PlayerState) : Board :=
  { b with playerStates := setPS b.playerStates pid ps }

/-- `if (this.faceUp[position] === false) this.faceUp[position] = true`. -/
def turnUp (b : Board) (position : Nat) : Board :=
  if b.faceUp.getD position false = false then
    { b with faceUp := b.faceUp.set position true }
  else b

/-- `this.controlledBy[position] = playerId`. -/
def assignControl (b : Board) (position : Nat) (pid : String) : Board :=
  { b with controlledBy := b.controlledBy.set position (some pid) }

/-- `this.controlledBy[position] = null`. -/
def clearControl (b : Board) (position : Nat) : Board :=
  { b with controlledBy := b.controlledBy.set position none }

/-- First-card rules 1-A to 1-D.  A flip that would park on the position
waiter returns `wait` (the code's `await` inside the 1-D loop). -/
def firstCard (b : Board) (ps : PlayerState) (pid : String) (position : Nat) :
    FlipOutcome × Board :=
  if b.cards.getD position none = none then (.err .noCard, b)
  else if b.controlledBy.getD position none ≠ none ∧
      b.controlledBy.getD position none ≠ some pid then
    (.wait, b)
  else
    let b := assignControl (turnUp b position) position pid
    (.ok, writePS b pid { ps with currentCards := ps.currentCards ++ [position] })

/-- Rules 2-A and 2-B: relinquish the first card, record it as a non-matching
previous move, and fail permanently. -/
def releaseFirst (b : Board) (ps : PlayerState) (pid : String) (e : FlipErr) :
    FlipOutcome × Board :=
  let firstPos := ps.currentCards.getD 0 0
  (.err e,
    writePS (clearControl b firstPos) pid
      { ps with previousCards := [firstPos], previousMatched := false, currentCards := [] })

/-- Second-card rules 2-A to 2-E. -/
def secondCard (b : Board) (ps : PlayerState) (pid : String) (position : Nat) :
    FlipOutcome × Board :=
  if b.cards.getD position none = none then releaseFirst b ps pid .noCard
  else if b.controlledBy.getD position none ≠ none then
    releaseFirst b ps pid .cardControlled
  else
    let b := turnUp b position
    let firstPos := ps.currentCards.getD 0 0
    if b.cards.getD firstPos none = b.cards.getD position none then
      -- Rule 2-D: keep the pair marked controlled, record a matched previous
      -- move, and empty `currentCards` for the later cleanup.
      let b := assignControl b position pid
      let ps := { ps with currentCards := ps.currentCards ++ [position] }
      (.ok, writePS b pid { ps with previousCards := [firstPos, position],
                                    previousMatched := true, currentCards := [] })
    else
      -- Rule 2-E: relinquish the first card; both cards stay face up.
      let b := clearControl b firstPos
      (.ok, writePS b pid { ps with previousCards := [firstPos, position],
                                    previousMatched := false, currentCards := [] })

/-- `flipCard` as a single evaluation step.  The final `this.checkRep()` on
the non-throwing paths is modelled by downgrading an `ok` to an assertion
failure when the rep check does not hold. -/
def flipCard (b0 : Board) (pid : String) (row column : Nat) : FlipOutcome × Board :=
  if row < b0.rows ∧ column < b0.columns then
    let position := row * b0.columns + column
    let ps0 := (lookupPS b0.playerStates pid).getD ⟨[], false, []⟩
    let b1 := writePS b0 pid ps0
    let n := ps0.currentCards.length
    let c := if n = 0 ∧ ps0.previousCards ≠ [] then cleanup b1 ps0 else (b1, ps0)
    let b2 := writePS c.1 pid c.2
    let r :=
      if n = 0 then firstCard b2 c.2 pid position
      else if n = 1 then secondCard b2 c.2 pid position
      else (.err .tooManyCards, b2)
    -- the trailing `this.checkRep()` runs only on the paths that did not
    -- throw, i.e. exactly when the outcome is `ok`
    if r.1 = .ok then
      if checkRep r.2 then (.ok, r.2) else (.err .assertionFailed, r.2)
    else r
  else (.err .invalidCoordinates, b0)

/-- `mapCards`: every distinct value is transformed once through the cache,
then all positions holding it are rewritten; `checkRep` runs after the
rewrite, so an invalid transformed value surfaces as a failed assertion with
the cells already rewritten. -/
def mapCards (b : Board) (f : String → String) : Option FlipErr × Board :=
  let b' := { b with cards := b.cards.map fun c => c.map f }
  ((if checkRep b' then none else some .assertionFailed), b')

/-- `parseFromFile` of `part_001` on the file's text content: split into
lines, discard every blank line, then parse. -/
def parseFromFile (content : String) : Except String Board :=
  let lines := (splitLines content).filter (fun l => l.data ≠ [])
  if lines.length < 2 then
    .error "Board file must have dimension line and at least one card"
  else
    match lines with
    | [] => .error "Board file must have dimension line and at least one card"
    | firstLine :: cardLines =>
      match parseHeader firstLine with
      | none => .error "First line must be in format ROWxCOLUMN"
      | some (rows, columns) =>
        if rows = 0 ∨ columns = 0 then .error "Rows and columns must be positive"
        else if cardLines.length ≠ rows * columns then
          .error "Expected cards but found a different number"
        else if cardLines.all (fun l => validCardValue l) then
          let b : Board :=
            { rows := rows, columns := columns
              cards := cardLines.map some
              faceUp := List.replicate (rows * columns) false
              controlledBy := List.replicate (rows * columns) none
              playerStates := [] }
          -- the private constructor ends with `this.checkRep()`
          if checkRep b then .ok b else .error "checkRep failed"
        else .error "Card must be non-empty and contain no whitespace"

/-- The state invariant used for reachability reasoning: the three parallel
arrays have the grid's size, and a controlled position is face up, holds a
card, and names a player present in the player table. -/
def Inv (b : Board) : Prop :=
  b.cards.length = b.rows * b.columns ∧
  b.faceUp.length = b.rows * b.columns ∧
  b.controlledBy.length = b.rows * b.columns ∧
  ∀ i q, b.controlledBy.getD i none = some q →
    b.faceUp.getD i false = true ∧ b.cards.getD i none ≠ none ∧
    (lookupPS b.playerStates q).isSome = true

/-- The board states reachable through the public operations of `part_001`:
a freshly parsed board, and the result state of any `flipCard` or `mapCards`
call (`getBoardState`, `toString` and `waitForChange` do not mutate). -/
inductive Reachable : Board → Prop where
  | parsed (content : String) (b : Board) (h : parseFromFile content = .ok b) : Reachable b
  | flip (b : Board) (pid : String) (row col : Nat) (h : Reachable b) :
      Reachable (flipCard b pid row col).2
  | mapped (b : Board) (f : String → String) (h : Reachable b) :
      Reachable (mapCards b f).2

end Part001

/-! ## `src/src/board.ts` — the mutex-based variant -/

namespace BoardTs

open ScrambleUtil

inductive CardState where
  | up
  | down
deriving DecidableEq

/-- A non-null `CardSpace`. -/
structure CardSpace where
  card : String
  state : CardState
deriving DecidableEq

/-- The representation of `class Board` in `board.ts`.  `changeListeners`
holds only wake handles and is not modelled; `boardVersion` is kept. -/
structure Board where
  cards : List (Option CardSpace)
  rows : Nat
  cols : Nat
  playerState : List (String × List Nat)
  boardVersion : Nat
deriving DecidableEq

/-- `Map.get` on the player table (the `controlled` set of a player,
represented as an insertion-ordered duplicate-free list). -/
def lookupCtl : List (String × List Nat) → String → Option (List Nat)
  | [], _ => none
  | (q, l) :: rest, pid => if q = pid then some l else lookupCtl rest pid

def setCtl : List (String × List Nat) → String → List Nat → List (String × List Nat)
  | [], pid, l => [(pid, l)]
  | (q, old) :: rest, pid, l =>
    if q = pid then (q, l) :: rest else (q, old) :: setCtl rest pid l

/-- The player's `controlled` set, `∅` when the player has no entry. -/
def controlledOf (b : Board) (pid : String) : List Nat :=
  (lookupCtl b.playerState pid).getD []

/-- `Set.prototype.add`: append if absent. -/
def setAdd (l : List Nat) (x : Nat) : List Nat :=
  if x ∈ l then l else l ++ [x]

/-- `/^[a-zA-Z0-9_]+$/` -/
def validPlayerId (s : String) : Bool :=
  s.data ≠ [] ∧ s.data.all fun c =>
    ('a' ≤ c ∧ c ≤ 'z') ∨ ('A' ≤ c ∧ c ≤ 'Z') ∨ ('0' ≤ c ∧ c ≤ '9') ∨ c = '_'

/-- `checkRep` of `board.ts`: sizes, card values, at most two controlled
cards per player, all controlled positions valid, non-null, pairwise
disjoint across players, and a controlled pair holds equal values. -/
def checkRep (b : Board) : Bool :=
  (b.cards.length == b.rows * b.cols) &&
  decide (0 < b.rows) && decide (0 < b.cols) &&
  (b.cards.all fun sp =>
    match sp with
    | none => true
    | some sp => sp.card.data ≠ []) &&
  (b.playerState.all fun e => decide (e.2.length ≤ 2)) &&
  (b.playerState.all fun e => e.2.all fun pos =>
    decide (pos < b.cards.length) && !(b.cards.getD pos none == none)) &&
  -- no position controlled by multiple players
  (b.playerState.all fun e => e.2.all fun pos =>
    b.playerState.all fun e' => e'.1 == e.1 || !(pos ∈ e'.2 : Bool)) &&
  (b.playerState.all fun e =>
    match e.2 with
    | [pos1, pos2] =>
      match b.cards.getD pos1 none, b.cards.getD pos2 none with
      | some c1, some c2 => c1.card == c2.card
      | _, _ => false
    | _ => true)

/-- The `SPOT` that `look` prints for position `i`. -/
def spotAt (b : Board) (pid : String) (i : Nat) : String :=
  match b.cards.getD i none with
  | none => "none"
  | some space =>
    if space.state = CardState.down then "down"
    else if i ∈ controlledOf b pid then "my " ++ space.card
    else "up " ++ space.card

/-- `look`: dimension line and one spot per cell; `spots.join('\n')` places
`\n` between consecutive entries with no trailing line feed. -/
def look (b : Board) (pid : String) : String :=
  ⟨ScrambleUtil.joinLines
    (((toString b.rows ++ "x" ++ toString b.cols) ::
        (List.range b.cards.length).map fun i => spotAt b pid i).map String.data)⟩

inductive FlipErr where
  | invalidPlayerId
  | invalidCoordinates
  | noCard
  | cardControlled
  | assertionFailed
deriving DecidableEq

inductive FlipOutcome where
  | ok
  | wait
  | err (e : FlipErr)
deriving DecidableEq

def notifyChange (b : Board) : Board := { b with boardVersion := b.boardVersion + 1 }

def isControlledByOther (b : Board) (position : Nat) (pid : String) : Bool :=
  b.playerState.any fun e => e.1 ≠ pid ∧ position ∈ e.2

/-- The union of every player's controlled set. -/
def allControlled (b : Board) : List Nat :=
  b.playerState.foldl (fun acc e => acc ++ e.2) []

/-- `flipDownUncontrolledCards`: turn face down every face-up card that no
player controls (rule 3-B in this variant sweeps the whole board). -/
def flipDownUncontrolledCards (b : Board) : Board :=
  let swept :=
    { b with
      cards := (List.range b.cards.length).foldl
        (fun cs i =>
          match cs.getD i none with
          | some sp =>
            if sp.state = CardState.up ∧ i ∉ allControlled b then
              cs.set i (some { sp with state := CardState.down })
            else cs
          | none => cs)
        b.cards }
  if swept.cards = b.cards then b else notifyChange swept

/-- Rules 1-B to 1-D for the first card. -/
def flipFirstCard (b : Board) (pid : String) (position : Nat) : FlipOutcome × Board :=
  if isControlledByOther b position pid then (.wait, b)
  else
    let b := flipDownUncontrolledCards b
    let b :=
      match b.cards.getD position none with
      | some sp =>
        if sp.state = CardState.down then
          { b with cards := b.cards.set position (some { sp with state := CardState.up }) }
        else b
      | none => b
    let b := { b with playerState := setCtl b.playerState pid (setAdd (controlledOf b pid) position) }
    (.ok, notifyChange b)

/-- Rules 2-A to 2-E for the second card.  There is no controlled-by-other
check in this variant: the flip proceeds with the value comparison. -/
def flipSecondCard (b : Board) (pid : String) (position : Nat) : FlipOutcome × Board :=
  if position ∈ controlledOf b pid then
    -- Rule 2-B (own card only): relinquish control, fail
    let b := { b with playerState := setCtl b.playerState pid [] }
    (.err .cardControlled, notifyChange b)
  else
    match b.cards.getD position none with
    | none =>
      -- unreachable: `tryFlip` already returned on a null space
      let b := { b with playerState := setCtl b.playerState pid [] }
      (.err .noCard, notifyChange b)
    | some space =>
      let firstPosition := (controlledOf b pid).getD 0 0
      match b.cards.getD firstPosition none with
      | none => (.err .assertionFailed, b)
      | some firstCard =>
        let b :=
          if space.state = CardState.down then
            { b with cards := b.cards.set position (some { space with state := CardState.up }) }
          else b
        if firstCard.card = space.card then
          let b := { b with playerState := setCtl b.playerState pid (setAdd (controlledOf b pid) position) }
          (.ok, notifyChange b)
        else
          let b := { b with playerState := setCtl b.playerState pid [] }
          (.ok, notifyChange b)

/-- Rule 3-A: remove a matched pair and clear the player's set. -/
def removeMatchedPair (b : Board) (pid : String) : Board :=
  let b :=
    { b with cards := (controlledOf b pid).foldl (fun cs pos => cs.set pos none) b.cards }
  let b := { b with playerState := setCtl b.playerState pid [] }
  notifyChange b

/-- The body of `tryFlip` after a matched pair has been removed; the
recursive call re-reads the space and then dispatches on the (now empty)
controlled set, so one unfolding suffices. -/
def tryFlipAfterRemoval (b : Board) (pid : String) (position : Nat) : FlipOutcome × Board :=
  match b.cards.getD position none with
  | none => (.err .noCard, b)
  | some _ =>
    match (controlledOf b pid).length with
    | 0 => flipFirstCard b pid position
    | 1 => flipSecondCard b pid position
    | _ => (.err .assertionFailed, b)  -- unreachable second recursion

/-- `tryFlip`: null-space check, lazy creation of the player entry, then
dispatch on how many cards the player controls. -/
def tryFlip (b : Board) (pid : String) (position : Nat) : FlipOutcome × Board :=
  match b.cards.getD position none with
  | none => (.err .noCard, b)
  | some _ =>
    let b :=
      if (lookupCtl b.playerState pid).isNone then
        { b with playerState := setCtl b.playerState pid [] }
      else b
    match (controlledOf b pid).length with
    | 0 => flipFirstCard b pid position
    | 1 => flipSecondCard b pid position
    | _ => tryFlipAfterRemoval (removeMatchedPair b pid) pid position

/-- `flip` as a single evaluation step: argument validation, one `tryFlip`
under the mutex, and on success the `checkRep` that the code runs before
returning (its assertion failure surfaces as an error with the state kept). -/
def flip (b : Board) (pid : String) (row col : Nat) : FlipOutcome × Board :=
  if ¬ validPlayerId pid then (.err .invalidPlayerId, b)
  else if ¬ (row < b.rows ∧ col < b.cols) then (.err .invalidCoordinates, b)
  else
    let position := row * b.cols + col
    match tryFlip b pid position with
    | (.ok, b') => if checkRep b' then (.ok, b') else (.err .assertionFailed, b')
    | other => other

/-- Transformed card values must be non-empty and whitespace-free. -/
def validMapped (v : String) : Bool := v.data ≠ [] ∧ ¬ containsWsCh v.data

/-- The distinct card values on the board, in first-appearance order. -/
def uniqueValues (b : Board) : List String :=
  b.cards.foldl
    (fun acc sp =>
      match sp with
      | none => acc
      | some sp => if sp.card ∈ acc then acc else acc ++ [sp.card])
    []

/-- `map`: transform every distinct value once through the cache, validating
each result before any cell is rewritten; then rewrite all cells atomically. -/
def map (b : Board) (pid : String) (f : String → String) : Except FlipErr Board :=
  if ¬ validPlayerId pid then .error .invalidPlayerId
  else if (uniqueValues b).all (fun v => validMapped (f v)) then
    let b := { b with cards := b.cards.map fun sp => sp.map fun sp => { sp with card := f sp.card } }
    let b := notifyChange b
    if checkRep b then .ok b else .error .assertionFailed
  else .error .cardControlled  -- "Transformed card must be non-empty …" (generic Error)

/-- Per-card-line processing of `parseFromFile`: trim, reject empty or
whitespace-containing values. -/
def validateCards : List String → Except String (List String)
  | [] => .ok []
  | line :: rest =>
    let t := strTrim line
    if t.data = [] then .error "Card value cannot be empty"
    else if containsWsCh t.data then .error "Card value cannot contain whitespace"
    else
      match validateCards rest with
      | .error e => .error e
      | .ok vs => .ok (t :: vs)

/-- `parseFromFile` of `board.ts` on the file's text content: trim the whole
content, split into lines, parse the header, check the card-line count, then
validate each card line. -/
def parseFromFile (content : String) : Except String Board :=
  match splitLines (strTrim content) with
  | [] => .error "Empty board file"
  | firstLine :: cardLines =>
    match parseHeader firstLine with
    | none => .error "Invalid board format: first line must be ROWSxCOLS"
    | some (rows, cols) =>
      if rows = 0 ∨ cols = 0 then .error "Board dimensions must be positive"
      else if cardLines.length ≠ rows * cols then
        .error "Expected a different number of cards"
      else
        match validateCards cardLines with
        | .error e => .error e
        | .ok values =>
          let b : Board :=
            { cards := values.map fun v => some { card := v, state := .down }
              rows := rows, cols := cols, playerState := [], boardVersion := 0 }
          if checkRep b then .ok b else .error "checkRep failed"

end BoardTs

deriving instance DecidableEq for Except

/-! ## Concrete fixture boards

Each literal is verified (in the theorems below) to be the exact result of
`parseFromFile` on the corresponding file content. -/

namespace Fixtures

/-- `board.ts` board parsed from `"1x2\nA\nA"`. -/
def tsAA : BoardTs.Board :=
  { cards := [some ⟨"A", .down⟩, some ⟨"A", .down⟩]
    rows := 1, cols := 2, playerState := [], boardVersion := 0 }

/-- `board.ts` board parsed from `"1x2\nA\nB"`. -/
def tsAB : BoardTs.Board :=
  { cards := [some ⟨"A", .down⟩, some ⟨"B", .down⟩]
    rows := 1, cols := 2, playerState := [], boardVersion := 0 }

/-- `board.ts` board parsed from `"1x4\nA\nA\nB\nC"`. -/
def tsAABC : BoardTs.Board :=
  { cards := [some ⟨"A", .down⟩, some ⟨"A", .down⟩, some ⟨"B", .down⟩, some ⟨"C", .down⟩]
    rows := 1, cols := 4, playerState := [], boardVersion := 0 }

/-- `board.ts` board parsed from `"1x3\nA\nB\nC"`. -/
def tsABC : BoardTs.Board :=
  { cards := [some ⟨"A", .down⟩, some ⟨"B", .down⟩, some ⟨"C", .down⟩]
    rows := 1, cols := 3, playerState := [], boardVersion := 0 }

/-- `part_001` board parsed from `"1x2\nA\nA"`. -/
def p2AA : Part001.Board :=
  { rows := 1, columns := 2, cards := [some "A", some "A"]
    faceUp := [false, false], controlledBy := [none, none], playerStates := [] }

/-- `part_001` board parsed from `"1x1\nA"`. -/
def p1A : Part001.Board :=
  { rows := 1, columns := 1, cards := [some "A"]
    faceUp := [false], controlledBy := [none], playerStates := [] }

/-- `part_001` board parsed from `"1x4\nA\nA\nB\nC"`. -/
def p4AABC : Part001.Board :=
  { rows := 1, columns := 4, cards := [some "A", some "A", some "B", some "C"]
    faceUp := [false, false, false, false]
    controlledBy := [none, none, none, none], playerStates := [] }

/-- `part_001` board parsed from `"1x2\nA\nB"`. -/
def p2AB : Part001.Board :=
  { rows := 1, columns := 2, cards := [some "A", some "B"]
    faceUp := [false, false], controlledBy := [none, none], playerStates := [] }

end Fixtures

/-! ## List lemmas -/

namespace ScrambleUtil

theorem getD_set (l : List α) (i j : Nat) (a d : α) :
    (l.set i a).getD j d = if i = j ∧ i < l.length then a else l.getD j d := by
  induction l generalizing i j with
  | nil => simp [List.set]
  | cons x xs ih =>
    cases i with
    | zero =>
      cases j <;> simp [List.set, List.getD]
    | succ i =>
      cases j with
      | zero => simp [List.set, List.getD]
      | succ j =>
        simp only [List.set, List.getD_cons_succ, List.length_cons]
        rw [ih i j]
        by_cases h : i = j ∧ i < xs.length
        · rw [if_pos h, if_pos (by omega)]
        · rw [if_neg h, if_neg (by omega)]

theorem getD_set_self (l : List α) (i : Nat) (a d : α) (h : i < l.length) :
    (l.set i a).getD i d = a := by
  simp [getD_set, h]

theorem getD_set_ne (l : List α) (i j : Nat) (a d : α) (h : i ≠ j) :
    (l.set i a).getD j d = l.getD j d := by
  simp [getD_set, h]

theorem getD_map (g : α → β) (l : List α) (i : Nat) (d : β) (d' : α) (h : i < l.length) :
    (l.map g).getD i d = g (l.getD i d') := by
  induction l generalizing i with
  | nil => simp at h
  | cons x xs ih =>
    cases i with
    | zero => simp [List.getD]
    | succ i =>
      simp only [List.map, List.getD_cons_succ]
      exact ih i (by simpa using h)

end ScrambleUtil

/-! ## Concrete scenario theorems for the claims -/

/-- C1: in `board.ts`, a player holding one card who flips a cell controlled
by another player is NOT rejected with the already-controlled error: the
missing rule 2-B check lets the flip fall through to the ordinary value
comparison, and with unequal values the call returns success.  (`part_001`
implements the claimed behaviour; see `c1_part001_controlled_second_flip`.) -/
theorem c1_boardTs_second_flip_on_controlled_cell_not_rejected :
    BoardTs.parseFromFile "1x2\nA\nB" = Except.ok Fixtures.tsAB ∧
    (let r1 := BoardTs.flip Fixtures.tsAB "alice" 0 0
     let r2 := BoardTs.flip r1.2 "bob" 0 1
     let r3 := BoardTs.flip r2.2 "bob" 0 0
     r1.1 = .ok ∧ r2.1 = .ok ∧
     BoardTs.controlledOf r2.2 "alice" = [0] ∧
     BoardTs.controlledOf r2.2 "bob" = [1] ∧
     r3.1 = .ok) := by
  decide

/-- C2: a reachable `board.ts` state violates the no-double-control
invariant: after `alice` and `bob` each hold one card of a matching pair,
`bob`'s second flip onto `alice`'s card adds the position to `bob`'s set as
an ordinary match, leaving position 0 controlled by both players; the code's
own `checkRep` assertion then fails. -/
theorem c2_boardTs_reachable_state_with_double_control :
    BoardTs.parseFromFile "1x2\nA\nA" = Except.ok Fixtures.tsAA ∧
    (let r1 := BoardTs.flip Fixtures.tsAA "alice" 0 0
     let r2 := BoardTs.flip r1.2 "bob" 0 1
     let r3 := BoardTs.flip r2.2 "bob" 0 0
     r1.1 = .ok ∧ r2.1 = .ok ∧
     r3.1 = .err .assertionFailed ∧
     0 ∈ BoardTs.controlledOf r3.2 "alice" ∧
     0 ∈ BoardTs.controlledOf r3.2 "bob" ∧
     BoardTs.checkRep r3.2 = false) := by
  decide

/-- C4: in `board.ts`, a player holding one card who flips an Empty cell is
rejected by the null-space check at the top of `tryFlip`, BEFORE the
second-card rules run; the release branch of `flipSecondCard` is dead code,
so the first card stays controlled and the player's set is not cleared. -/
theorem c4_boardTs_empty_second_flip_keeps_first_card :
    BoardTs.parseFromFile "1x4\nA\nA\nB\nC" = Except.ok Fixtures.tsAABC ∧
    (let r1 := BoardTs.flip Fixtures.tsAABC "alice" 0 0
     let r2 := BoardTs.flip r1.2 "alice" 0 1
     let r3 := BoardTs.flip r2.2 "alice" 0 2
     let r4 := BoardTs.flip r3.2 "alice" 0 0
     r1.1 = .ok ∧ r2.1 = .ok ∧ r3.1 = .ok ∧
     r3.2.cards.getD 0 none = none ∧
     BoardTs.controlledOf r3.2 "alice" = [2] ∧
     r4.1 = .err .noCard ∧
     BoardTs.controlledOf r4.2 "alice" = [2]) := by
  decide

/-- C7: in `part_001`, `mapCards` with a transformer producing a
whitespace-containing value rewrites the cell FIRST and only then fails the
final `checkRep` assertion: the error is signalled with the board already
holding the invalid rewritten value. -/
theorem c7_part001_mapCards_rewrites_before_the_error :
    Part001.parseFromFile "1x1\nA" = Except.ok Fixtures.p1A ∧
    (Part001.mapCards Fixtures.p1A fun _ => "a b").1 = some .assertionFailed ∧
    (Part001.mapCards Fixtures.p1A fun _ => "a b").2.cards = [some "a b"] := by
  decide

/-- C3 counterexample: in `part_001`, when the matching second flip returns,
both cells of the pair still carry the player as controller (`controlledBy`
is only cleared by the next move's cleanup), refuting "both cells of the
pair are face Up with no controller". -/
theorem c3_counterexample_part001_match_keeps_controllers :
    Part001.parseFromFile "1x2\nA\nA" = Except.ok Fixtures.p2AA ∧
    (let r1 := Part001.flipCard Fixtures.p2AA "alice" 0 0
     let r2 := Part001.flipCard r1.2 "alice" 0 1
     r1.1 = .ok ∧ r2.1 = .ok ∧
     Part001.lookupPS r2.2.playerStates "alice" =
       some { previousCards := [0, 1], previousMatched := true, currentCards := [] } ∧
     r2.2.faceUp = [true, true] ∧
     r2.2.controlledBy = [some "alice", some "alice"]) := by
  decide

/-- C5 counterexample: in `board.ts`, the pre-flip sweep
(`flipDownUncontrolledCards`) turns face down cards that are NOT among the
flipping player's previous positions: `alice`, who has never flipped a card,
flips cell 2, and cells 0 and 1 (left face up by `bob`'s non-match) are
turned face down by her call. -/
theorem c5_counterexample_boardTs_sweep_changes_foreign_cells :
    BoardTs.parseFromFile "1x3\nA\nB\nC" = Except.ok Fixtures.tsABC ∧
    (let r1 := BoardTs.flip Fixtures.tsABC "bob" 0 0
     let r2 := BoardTs.flip r1.2 "bob" 0 1
     let r3 := BoardTs.flip r2.2 "alice" 0 2
     r1.1 = .ok ∧ r2.1 = .ok ∧
     BoardTs.lookupCtl r2.2.playerState "alice" = none ∧
     r2.2.cards.getD 0 none = some ⟨"A", .up⟩ ∧
     r3.1 = .ok ∧
     r3.2.cards.getD 0 none = some ⟨"A", .down⟩) := by
  decide

/-- C8 counterexample: `part_001`'s `parseFromFile` filters out every blank
line before counting, so a file with a blank line BETWEEN the header and the
last card line parses successfully instead of signalling a parse error. -/
theorem c8_counterexample_part001_interior_blank_line_accepted :
    Part001.parseFromFile "2x1\na\n\nb" =
      Except.ok
        { rows := 2, columns := 1, cards := [some "a", some "b"]
          faceUp := [false, false], controlledBy := [none, none], playerStates := [] } := by
  decide

/-- C9 counterexample: `part_001`'s `getBoardState` appends `\n` after every
spot including the last, so the output ends with a line feed, refuting "no
trailing line feed after the final spot". -/
theorem c9_counterexample_part001_trailing_line_feed :
    Part001.parseFromFile "1x1\nA" = Except.ok Fixtures.p1A ∧
    Part001.getBoardState Fixtures.p1A "alice" = "1x1\ndown\n" ∧
    ("1x1\ndown\n").data.getLast? = some '\n' := by
  decide

/-! ## More list lemmas -/

namespace ScrambleUtil

theorem getD_eq_default (l : List α) (d : α) (h : l.length ≤ n) : l.getD n d = d := by
  simp [List.getD, List.getElem?_eq_none h]

theorem lt_length_of_getD_ne (l : List α) (d : α) (h : l.getD n d ≠ d) : n < l.length := by
  by_contra hge
  exact h (getD_eq_default l d (by omega))

end ScrambleUtil

/-! ## `part_001` basic lemmas -/

namespace Part001

open ScrambleUtil

theorem writePS_rows (b : Board) (pid ps) : (writePS b pid ps).rows = b.rows := rfl

theorem writePS_columns (b : Board) (pid ps) : (writePS b pid ps).columns = b.columns := rfl

theorem writePS_cards (b : Board) (pid ps) : (writePS b pid ps).cards = b.cards := rfl

theorem writePS_faceUp (b : Board) (pid ps) : (writePS b pid ps).faceUp = b.faceUp := rfl

theorem writePS_controlledBy (b : Board) (pid ps) :
    (writePS b pid ps).controlledBy = b.controlledBy := rfl

theorem lookupPS_setPS (m : List (String × PlayerState)) (pid : String) (ps : PlayerState)
    (q : String) :
    lookupPS (setPS m pid ps) q = if q = pid then some ps else lookupPS m q := by
  induction m with
  | nil =>
    by_cases h : q = pid
    · subst h
      simp [setPS, lookupPS]
    · have h2 : ¬ pid = q := fun hh => h hh.symm
      simp [setPS, lookupPS, h, h2]
  | cons e rest ih =>
    obtain ⟨k, old⟩ := e
    by_cases hk : k = pid
    · subst hk
      by_cases hq : q = k
      · subst hq
        simp [setPS, lookupPS]
      · have hq2 : ¬ k = q := fun hh => hq hh.symm
        simp [setPS, lookupPS, hq, hq2]
    · by_cases hq : q = k
      · subst hq
        simp [setPS, lookupPS, hk]
      · have hq2 : ¬ k = q := fun hh => hq hh.symm
        simp [setPS, lookupPS, hk, hq, hq2, ih]

theorem mem_setPS (m : List (String × PlayerState)) (pid : String) (ps : PlayerState)
    (e : String × PlayerState) :
    e ∈ setPS m pid ps → e ∈ m ∨ e = (pid, ps) := by
  induction m with
  | nil =>
    intro he
    simp [setPS] at he
    exact Or.inr he
  | cons f rest ih =>
    obtain ⟨k, old⟩ := f
    intro he
    by_cases hk : k = pid
    · subst hk
      simp only [setPS, if_pos rfl] at he
      cases he with
      | head => exact Or.inr rfl
      | tail _ hmem => exact Or.inl (List.mem_cons_of_mem _ hmem)
    · simp only [setPS, if_neg hk] at he
      cases he with
      | head => exact Or.inl (List.mem_cons_self _ _)
      | tail _ hmem =>
        rcases ih hmem with h | h
        · exact Or.inl (List.mem_cons_of_mem _ h)
        · exact Or.inr h

/-! ### Frame lemmas for the rule 3-B cleanup loop -/

theorem flipDownPrev_nil (b : Board) : flipDownPrev b [] = b := rfl

theorem flipDownPrev_cons (b : Board) (p : Nat) (ps : List Nat) :
    flipDownPrev b (p :: ps) =
      flipDownPrev
        (if b.cards.getD p none ≠ none ∧ b.faceUp.getD p false = true ∧
            b.controlledBy.getD p none = none then
          { b with faceUp := b.faceUp.set p false }
        else b) ps := rfl

theorem flipDownPrev_rows (b : Board) (ps : List Nat) : (flipDownPrev b ps).rows = b.rows := by
  induction ps generalizing b with
  | nil => rfl
  | cons p ps ih => rw [flipDownPrev_cons, ih]; split <;> rfl

theorem flipDownPrev_columns (b : Board) (ps : List Nat) :
    (flipDownPrev b ps).columns = b.columns := by
  induction ps generalizing b with
  | nil => rfl
  | cons p ps ih => rw [flipDownPrev_cons, ih]; split <;> rfl

theorem flipDownPrev_cards (b : Board) (ps : List Nat) :
    (flipDownPrev b ps).cards = b.cards := by
  induction ps generalizing b with
  | nil => rfl
  | cons p ps ih => rw [flipDownPrev_cons, ih]; split <;> rfl

theorem flipDownPrev_controlledBy (b : Board) (ps : List Nat) :
    (flipDownPrev b ps).controlledBy = b.controlledBy := by
  induction ps generalizing b with
  | nil => rfl
  | cons p ps ih => rw [flipDownPrev_cons, ih]; split <;> rfl

theorem flipDownPrev_playerStates (b : Board) (ps : List Nat) :
    (flipDownPrev b ps).playerStates = b.playerStates := by
  induction ps generalizing b with
  | nil => rfl
  | cons p ps ih => rw [flipDownPrev_cons, ih]; split <;> rfl

theorem flipDownPrev_faceUp_length (b : Board) (ps : List Nat) :
    (flipDownPrev b ps).faceUp.length = b.faceUp.length := by
  induction ps generalizing b with
  | nil => rfl
  | cons p ps ih =>
    rw [flipDownPrev_cons, ih]
    split
    · exact List.length_set _ _ _
    · rfl

theorem flipDownPrev_faceUp_not_mem (b : Board) (ps : List Nat) (j : Nat) (hj : j ∉ ps) :
    (flipDownPrev b ps).faceUp.getD j false = b.faceUp.getD j false := by
  induction ps generalizing b with
  | nil => rfl
  | cons p ps ih =>
    have hjp : p ≠ j := fun h => hj (by simp [h])
    have hj' : j ∉ ps := fun h => hj (by simp [h])
    rw [flipDownPrev_cons]
    split
    · rw [ih _ hj']
      exact getD_set_ne _ p j _ _ hjp
    · exact ih _ hj'

theorem flipDownPrev_faceUp_mono (b : Board) (ps : List Nat) (j : Nat)
    (h : b.faceUp.getD j false = false) :
    (flipDownPrev b ps).faceUp.getD j false = false := by
  induction ps generalizing b with
  | nil => exact h
  | cons p ps ih =>
    rw [flipDownPrev_cons]
    split
    · refine ih _ ?_
      by_cases hpj : p = j
      · subst hpj
        rw [getD_set]
        split
        · rfl
        · exact h
      · rw [getD_set_ne _ p j _ _ hpj]
        exact h
    · exact ih _ h

theorem flipDownPrev_faceUp_controlled (b : Board) (ps : List Nat) (j : Nat)
    (h : b.controlledBy.getD j none ≠ none) :
    (flipDownPrev b ps).faceUp.getD j false = b.faceUp.getD j false := by
  induction ps generalizing b with
  | nil => rfl
  | cons p ps ih =>
    rw [flipDownPrev_cons]
    split
    · rename_i hcond
      have hpj : p ≠ j := by
        intro hpj
        subst hpj
        exact h hcond.2.2
      rw [ih { b with faceUp := b.faceUp.set p false } h]
      exact getD_set_ne _ p j _ _ hpj
    · exact ih _ h

theorem flipDownPrev_faceUp_down (b : Board) (ps : List Nat) (j : Nat) (hj : j ∈ ps)
    (hcard : b.cards.getD j none ≠ none) (hup : b.faceUp.getD j false = true)
    (hctl : b.controlledBy.getD j none = none) :
    (flipDownPrev b ps).faceUp.getD j false = false := by
  induction ps generalizing b with
  | nil => simp at hj
  | cons p ps ih =>
    rw [flipDownPrev_cons]
    by_cases hpj : p = j
    · subst hpj
      rw [if_pos ⟨hcard, hup, hctl⟩]
      have hlen : p < b.faceUp.length :=
        lt_length_of_getD_ne _ _ (by rw [hup]; exact fun h => by cases h)
      refine flipDownPrev_faceUp_mono _ _ _ ?_
      exact getD_set_self _ p _ _ hlen
    · have hj' : j ∈ ps := by
        rcases List.mem_cons.mp hj with h | h
        · exact absurd h.symm hpj
        · exact h
      split
      · refine ih _ hj' hcard ?_ hctl
        rw [getD_set_ne _ p j _ _ hpj]
        exact hup
      · exact ih _ hj' hcard hup hctl

end Part001

/-- C5 (amended): in `part_001`, the pre-flip cleanup of a non-matching
previous move leaves values, emptiness and controllers of every cell
unchanged and touches only the faces of cells listed in the player's
`previousCards`: a listed cell that is still present, face Up and
uncontrolled is turned face Down, a listed cell claimed by a player keeps
its face, and every unlisted cell keeps its face.  (`board.ts` instead
sweeps the whole board face-down at each first flip — see the
counterexample.) -/
theorem c5_part001_cleanup_touches_only_previous (b : Part001.Board)
    (ps : Part001.PlayerState) (hm : ps.previousMatched = false) :
    (Part001.cleanup b ps).1.cards = b.cards ∧
    (Part001.cleanup b ps).1.controlledBy = b.controlledBy ∧
    (Part001.cleanup b ps).1.playerStates = b.playerStates ∧
    (∀ j, j ∉ ps.previousCards →
      (Part001.cleanup b ps).1.faceUp.getD j false = b.faceUp.getD j false) ∧
    (∀ j ∈ ps.previousCards, b.controlledBy.getD j none ≠ none →
      (Part001.cleanup b ps).1.faceUp.getD j false = b.faceUp.getD j false) ∧
    (∀ j ∈ ps.previousCards, b.cards.getD j none ≠ none →
      b.faceUp.getD j false = true → b.controlledBy.getD j none = none →
      (Part001.cleanup b ps).1.faceUp.getD j false = false) := by
  have hc : (Part001.cleanup b ps).1 = Part001.flipDownPrev b ps.previousCards := by
    simp [Part001.cleanup, hm]
  rw [hc]
  exact ⟨Part001.flipDownPrev_cards _ _, Part001.flipDownPrev_controlledBy _ _,
    Part001.flipDownPrev_playerStates _ _,
    fun j hj => Part001.flipDownPrev_faceUp_not_mem _ _ _ hj,
    fun j _ h => Part001.flipDownPrev_faceUp_controlled _ _ _ h,
    fun j hj h1 h2 h3 => Part001.flipDownPrev_faceUp_down _ _ _ hj h1 h2 h3⟩

/-- C5 witness: the cleanup theorem applied to a concrete board where cell 0
is an uncontrolled face-up previous card (turned down), cell 1 is a previous
card claimed by another player (untouched), and cell 2 is unlisted. -/
theorem c5_part001_cleanup_witness :
    ((Part001.cleanup
        { rows := 1, columns := 3, cards := [some "A", some "B", some "C"]
          faceUp := [true, true, true], controlledBy := [none, some "zoe", none]
          playerStates := [] }
        { previousCards := [0, 1], previousMatched := false,
          currentCards := [] }).1.faceUp.getD 0 false = false) ∧
    ((Part001.cleanup
        { rows := 1, columns := 3, cards := [some "A", some "B", some "C"]
          faceUp := [true, true, true], controlledBy := [none, some "zoe", none]
          playerStates := [] }
        { previousCards := [0, 1], previousMatched := false,
          currentCards := [] }).1.faceUp.getD 2 false = true) := by
  refine ⟨?_, ?_⟩
  · exact (c5_part001_cleanup_touches_only_previous _ _ rfl).2.2.2.2.2 0 (by decide)
      (by decide) (by decide) (by decide)
  · rw [(c5_part001_cleanup_touches_only_previous _ _ rfl).2.2.2.1 2 (by decide)]
    decide

/-! ## `part_001` invariant preservation -/

namespace Part001

open ScrambleUtil

theorem getD_map_general (g : α → β) (l : List α) (i : Nat) (d : α) :
    (l.map g).getD i (g d) = g (l.getD i d) := by
  induction l generalizing i with
  | nil => simp [List.getD]
  | cons x xs ih =>
    cases i with
    | zero => simp [List.getD]
    | succ i =>
      simp only [List.map, List.getD_cons_succ]
      exact ih i

theorem getD_replicate_self (n : Nat) (a : α) (i : Nat) :
    (List.replicate n a).getD i a = a := by
  induction n generalizing i with
  | zero => simp [List.getD]
  | succ n ih =>
    cases i with
    | zero => simp [List.replicate, List.getD]
    | succ i =>
      simp only [List.replicate, List.getD_cons_succ]
      exact ih i

theorem lookupPS_mem (m : List (String × PlayerState)) (pid : String) (ps : PlayerState)
    (h : lookupPS m pid = some ps) : (pid, ps) ∈ m := by
  induction m with
  | nil => simp [lookupPS] at h
  | cons e rest ih =>
    obtain ⟨k, old⟩ := e
    by_cases hk : k = pid
    · subst hk
      rw [lookupPS, if_pos rfl] at h
      injection h with h
      rw [← h]
      exact List.mem_cons_self _ _
    · rw [lookupPS, if_neg hk] at h
      exact List.mem_cons_of_mem _ (ih h)

/-! ### `removePrev` frame lemmas -/

theorem removePrev_nil (b : Board) : removePrev b [] = b := rfl

theorem removePrev_cons (b : Board) (p : Nat) (ps : List Nat) :
    removePrev b (p :: ps) =
      removePrev
        (if b.cards.getD p none ≠ none then
          { b with cards := b.cards.set p none, faceUp := b.faceUp.set p false,
                   controlledBy := b.controlledBy.set p none }
        else b) ps := rfl

theorem removePrev_rows (b : Board) (ps : List Nat) : (removePrev b ps).rows = b.rows := by
  induction ps generalizing b with
  | nil => rfl
  | cons p ps ih => rw [removePrev_cons, ih]; split <;> rfl

theorem removePrev_columns (b : Board) (ps : List Nat) :
    (removePrev b ps).columns = b.columns := by
  induction ps generalizing b with
  | nil => rfl
  | cons p ps ih => rw [removePrev_cons, ih]; split <;> rfl

theorem removePrev_playerStates (b : Board) (ps : List Nat) :
    (removePrev b ps).playerStates = b.playerStates := by
  induction ps generalizing b with
  | nil => rfl
  | cons p ps ih => rw [removePrev_cons, ih]; split <;> rfl

theorem removePrev_cards_length (b : Board) (ps : List Nat) :
    (removePrev b ps).cards.length = b.cards.length := by
  induction ps generalizing b with
  | nil => rfl
  | cons p ps ih =>
    rw [removePrev_cons, ih]
    split
    · exact List.length_set _ _ _
    · rfl

theorem removePrev_faceUp_length (b : Board) (ps : List Nat) :
    (removePrev b ps).faceUp.length = b.faceUp.length := by
  induction ps generalizing b with
  | nil => rfl
  | cons p ps ih =>
    rw [removePrev_cons, ih]
    split
    · exact List.length_set _ _ _
    · rfl

theorem removePrev_controlledBy_length (b : Board) (ps : List Nat) :
    (removePrev b ps).controlledBy.length = b.controlledBy.length := by
  induction ps generalizing b with
  | nil => rfl
  | cons p ps ih =>
    rw [removePrev_cons, ih]
    split
    · exact List.length_set _ _ _
    · rfl

theorem removePrev_controlledBy_none (b : Board) (ps : List Nat) (j : Nat)
    (h : b.controlledBy.getD j none = none) :
    (removePrev b ps).controlledBy.getD j none = none := by
  induction ps generalizing b with
  | nil => exact h
  | cons p ps ih =>
    rw [removePrev_cons]
    split
    · refine ih _ ?_
      show (b.controlledBy.set p none).getD j none = none
      rw [getD_set]
      split
      · rfl
      · exact h
    · exact ih _ h

theorem removePrev_controlled_frame (b : Board) (ps : List Nat) (j : Nat) (q : String)
    (h : (removePrev b ps).controlledBy.getD j none = some q) :
    b.controlledBy.getD j none = some q ∧
    (removePrev b ps).faceUp.getD j false = b.faceUp.getD j false ∧
    (removePrev b ps).cards.getD j none = b.cards.getD j none := by
  induction ps generalizing b with
  | nil => exact ⟨h, rfl, rfl⟩
  | cons p ps ih =>
    rw [removePrev_cons] at h ⊢
    by_cases hcond : b.cards.getD p none ≠ none
    · rw [if_pos hcond] at h ⊢
      by_cases hj : j = p
      · subst hj
        exfalso
        have hnone : (b.controlledBy.set j none).getD j none = none := by
          rw [getD_set]
          split
          · rfl
          · rename_i hc
            by_cases hlt : j < b.controlledBy.length
            · exact absurd ⟨rfl, hlt⟩ hc
            · exact getD_eq_default _ _ (by omega)
        have := removePrev_controlledBy_none
          { b with cards := b.cards.set j none, faceUp := b.faceUp.set j false,
                   controlledBy := b.controlledBy.set j none } ps j hnone
        rw [this] at h
        cases h
      · obtain ⟨h1, h2, h3⟩ := ih _ h
        refine ⟨?_, ?_, ?_⟩
        · rw [← getD_set_ne b.controlledBy p j none none (fun hh => hj hh.symm)]
          exact h1
        · rw [h2]
          exact getD_set_ne _ p j _ _ (fun hh => hj hh.symm)
        · rw [h3]
          exact getD_set_ne _ p j _ _ (fun hh => hj hh.symm)
    · rw [if_neg hcond] at h ⊢
      exact ih _ h

/-! ### Small update helpers -/

theorem turnUp_cards (b : Board) (p : Nat) : (turnUp b p).cards = b.cards := by
  unfold turnUp; split <;> rfl

theorem turnUp_controlledBy (b : Board) (p : Nat) :
    (turnUp b p).controlledBy = b.controlledBy := by
  unfold turnUp; split <;> rfl

theorem turnUp_playerStates (b : Board) (p : Nat) :
    (turnUp b p).playerStates = b.playerStates := by
  unfold turnUp; split <;> rfl

theorem turnUp_rows (b : Board) (p : Nat) : (turnUp b p).rows = b.rows := by
  unfold turnUp; split <;> rfl

theorem turnUp_columns (b : Board) (p : Nat) : (turnUp b p).columns = b.columns := by
  unfold turnUp; split <;> rfl

theorem turnUp_faceUp_length (b : Board) (p : Nat) :
    (turnUp b p).faceUp.length = b.faceUp.length := by
  unfold turnUp
  split
  · exact List.length_set _ _ _
  · rfl

theorem turnUp_faceUp_ne (b : Board) (p j : Nat) (h : p ≠ j) :
    (turnUp b p).faceUp.getD j false = b.faceUp.getD j false := by
  unfold turnUp
  split
  · exact getD_set_ne _ p j _ _ h
  · rfl

theorem turnUp_faceUp_self (b : Board) (p : Nat) (h : p < b.faceUp.length) :
    (turnUp b p).faceUp.getD p false = true := by
  unfold turnUp
  split
  · exact getD_set_self _ p _ _ h
  · rename_i hc
    exact Bool.not_eq_false _ |>.mp hc

theorem turnUp_faceUp_keep_true (b : Board) (p j : Nat)
    (h : b.faceUp.getD j false = true) :
    (turnUp b p).faceUp.getD j false = true := by
  by_cases hpj : p = j
  · subst hpj
    have hlt : p < b.faceUp.length :=
      lt_length_of_getD_ne _ _ (by rw [h]; exact fun hh => by cases hh)
    exact turnUp_faceUp_self b p hlt
  · rw [turnUp_faceUp_ne b p j hpj]
    exact h

theorem inv_writePS (b : Board) (pid : String) (ps : PlayerState) (hb : Inv b) :
    Inv (writePS b pid ps) := by
  obtain ⟨h1, h2, h3, h4⟩ := hb
  refine ⟨h1, h2, h3, ?_⟩
  intro i q h
  obtain ⟨hf, hc, hl⟩ := h4 i q h
  refine ⟨hf, hc, ?_⟩
  show (lookupPS (setPS b.playerStates pid ps) q).isSome = true
  rw [lookupPS_setPS]
  split
  · rfl
  · exact hl

theorem inv_turnUp (b : Board) (p : Nat) (hb : Inv b) : Inv (turnUp b p) := by
  obtain ⟨h1, h2, h3, h4⟩ := hb
  refine ⟨?_, ?_, ?_, ?_⟩
  · rw [turnUp_cards, turnUp_rows, turnUp_columns]; exact h1
  · rw [turnUp_faceUp_length, turnUp_rows, turnUp_columns]; exact h2
  · rw [turnUp_controlledBy, turnUp_rows, turnUp_columns]; exact h3
  · intro i q h
    rw [turnUp_controlledBy] at h
    obtain ⟨hf, hc, hl⟩ := h4 i q h
    rw [turnUp_cards, turnUp_playerStates]
    exact ⟨turnUp_faceUp_keep_true b p i hf, hc, hl⟩

theorem inv_assignControl (b : Board) (p : Nat) (pid : String) (hb : Inv b)
    (hcard : b.cards.getD p none ≠ none) (hface : b.faceUp.getD p false = true)
    (hpid : (lookupPS b.playerStates pid).isSome = true) :
    Inv (assignControl b p pid) := by
  obtain ⟨h1, h2, h3, h4⟩ := hb
  refine ⟨h1, h2, ?_, ?_⟩
  · show (b.controlledBy.set p (some pid)).length = b.rows * b.columns
    rw [List.length_set]
    exact h3
  · intro i q h
    show b.faceUp.getD i false = true ∧ b.cards.getD i none ≠ none ∧
      (lookupPS b.playerStates q).isSome = true
    by_cases hip : p = i
    · subst hip
      rw [show (assignControl b p pid).controlledBy = b.controlledBy.set p (some pid) from rfl,
        getD_set] at h
      split at h
      · injection h with h
        subst h
        exact ⟨hface, hcard, hpid⟩
      · exact h4 p q h
    · rw [show (assignControl b p pid).controlledBy = b.controlledBy.set p (some pid) from rfl,
        getD_set_ne _ p i _ _ hip] at h
      exact h4 i q h

theorem inv_clearControl (b : Board) (p : Nat) (hb : Inv b) : Inv (clearControl b p) := by
  obtain ⟨h1, h2, h3, h4⟩ := hb
  refine ⟨h1, h2, ?_, ?_⟩
  · show (b.controlledBy.set p none).length = b.rows * b.columns
    rw [List.length_set]
    exact h3
  · intro i q h
    show b.faceUp.getD i false = true ∧ b.cards.getD i none ≠ none ∧
      (lookupPS b.playerStates q).isSome = true
    rw [show (clearControl b p).controlledBy = b.controlledBy.set p none from rfl,
      getD_set] at h
    split at h
    · cases h
    · exact h4 i q h

theorem inv_flipDownPrev (b : Board) (ps : List Nat) (hb : Inv b) :
    Inv (flipDownPrev b ps) := by
  obtain ⟨h1, h2, h3, h4⟩ := hb
  refine ⟨?_, ?_, ?_, ?_⟩
  · rw [flipDownPrev_cards, flipDownPrev_rows, flipDownPrev_columns]; exact h1
  · rw [flipDownPrev_faceUp_length, flipDownPrev_rows, flipDownPrev_columns]; exact h2
  · rw [flipDownPrev_controlledBy, flipDownPrev_rows, flipDownPrev_columns]; exact h3
  · intro i q h
    rw [flipDownPrev_controlledBy] at h
    obtain ⟨hf, hc, hl⟩ := h4 i q h
    rw [flipDownPrev_cards, flipDownPrev_playerStates]
    refine ⟨?_, hc, hl⟩
    rw [flipDownPrev_faceUp_controlled b ps i (by rw [h]; exact fun hh => by cases hh)]
    exact hf

theorem inv_removePrev (b : Board) (ps : List Nat) (hb : Inv b) :
    Inv (removePrev b ps) := by
  obtain ⟨h1, h2, h3, h4⟩ := hb
  refine ⟨?_, ?_, ?_, ?_⟩
  · rw [removePrev_cards_length, removePrev_rows, removePrev_columns]; exact h1
  · rw [removePrev_faceUp_length, removePrev_rows, removePrev_columns]; exact h2
  · rw [removePrev_controlledBy_length, removePrev_rows, removePrev_columns]; exact h3
  · intro i q h
    obtain ⟨hold, hface, hcards⟩ := removePrev_controlled_frame b ps i q h
    obtain ⟨hf, hc, hl⟩ := h4 i q hold
    rw [removePrev_playerStates, hface, hcards]
    exact ⟨hf, hc, hl⟩

theorem inv_cleanup (b : Board) (ps : PlayerState) (hb : Inv b) : Inv (cleanup b ps).1 := by
  unfold cleanup
  split
  · exact inv_removePrev b ps.previousCards hb
  · exact inv_flipDownPrev b ps.previousCards hb

theorem inv_firstCard (b : Board) (ps : PlayerState) (pid : String) (position : Nat)
    (hb : Inv b) (hpos : position < b.rows * b.columns)
    (_hpid : (lookupPS b.playerStates pid).isSome = true) :
    Inv (firstCard b ps pid position).2 := by
  unfold firstCard
  split
  · exact hb
  · split
    · exact hb
    · rename_i hcard _
      refine inv_writePS _ pid _ ?_
      refine inv_assignControl (turnUp b position) position pid (inv_turnUp b position hb) ?_ ?_ ?_
      · rw [turnUp_cards]
        exact hcard
      · refine turnUp_faceUp_self b position ?_
        rw [hb.2.1]
        exact hpos
      · rw [turnUp_playerStates]
        exact _hpid

theorem inv_releaseFirst (b : Board) (ps : PlayerState) (pid : String) (e : FlipErr)
    (hb : Inv b) : Inv (releaseFirst b ps pid e).2 := by
  unfold releaseFirst
  exact inv_writePS _ pid _ (inv_clearControl b _ hb)

theorem inv_secondCard (b : Board) (ps : PlayerState) (pid : String) (position : Nat)
    (hb : Inv b) (hpos : position < b.rows * b.columns)
    (hpid : (lookupPS b.playerStates pid).isSome = true) :
    Inv (secondCard b ps pid position).2 := by
  unfold secondCard
  split
  · exact inv_releaseFirst b ps pid _ hb
  · split
    · exact inv_releaseFirst b ps pid _ hb
    · rename_i hcard _
      dsimp only
      split
      · refine inv_writePS _ pid _ ?_
        refine inv_assignControl (turnUp b position) position pid (inv_turnUp b position hb)
          ?_ ?_ ?_
        · rw [turnUp_cards]
          exact hcard
        · refine turnUp_faceUp_self b position ?_
          rw [hb.2.1]
          exact hpos
        · rw [turnUp_playerStates]
          exact hpid
      · refine inv_writePS _ pid _ ?_
        exact inv_clearControl (turnUp b position) _ (inv_turnUp b position hb)

theorem inv_flipCard (b : Board) (pid : String) (row col : Nat) (hb : Inv b) :
    Inv (flipCard b pid row col).2 := by
  unfold flipCard
  by_cases hg : row < b.rows ∧ col < b.columns
  · rw [if_pos hg]
    simp only []
    set ps0 := (lookupPS b.playerStates pid).getD ⟨[], false, []⟩ with hps0
    set b1 := writePS b pid ps0 with hb1
    have hib1 : Inv b1 := inv_writePS b pid ps0 hb
    set c :=
      if ps0.currentCards.length = 0 ∧ ps0.previousCards ≠ [] then cleanup b1 ps0
      else (b1, ps0) with hc
    have hic : Inv c.1 := by
      rw [hc]
      split
      · exact inv_cleanup b1 ps0 hib1
      · exact hib1
    set b2 := writePS c.1 pid c.2 with hb2
    have hib2 : Inv b2 := inv_writePS c.1 pid c.2 hic
    have hrows2 : b2.rows = b.rows := by
      rw [hb2, writePS_rows, hc]
      split
      · show (cleanup b1 ps0).1.rows = b.rows
        unfold cleanup
        split
        · rw [removePrev_rows]; rfl
        · rw [flipDownPrev_rows]; rfl
      · rfl
    have hcols2 : b2.columns = b.columns := by
      rw [hb2, writePS_columns, hc]
      split
      · show (cleanup b1 ps0).1.columns = b.columns
        unfold cleanup
        split
        · rw [removePrev_columns]; rfl
        · rw [flipDownPrev_columns]; rfl
      · rfl
    have hpos : row * b.columns + col < b2.rows * b2.columns := by
      rw [hrows2, hcols2]
      calc row * b.columns + col < row * b.columns + b.columns := by omega
        _ = (row + 1) * b.columns := by ring
        _ ≤ b.rows * b.columns := Nat.mul_le_mul_right _ hg.1
    have hpid2 : (lookupPS b2.playerStates pid).isSome = true := by
      rw [hb2]
      show (lookupPS (setPS c.1.playerStates pid c.2) pid).isSome = true
      rw [lookupPS_setPS, if_pos rfl]
      rfl
    set r :=
      if ps0.currentCards.length = 0 then firstCard b2 c.2 pid (row * b.columns + col)
      else if ps0.currentCards.length = 1 then secondCard b2 c.2 pid (row * b.columns + col)
      else (FlipOutcome.err .tooManyCards, b2) with hr
    have hir : Inv r.2 := by
      rw [hr]
      split
      · exact inv_firstCard b2 c.2 pid _ hib2 hpos hpid2
      · split
        · exact inv_secondCard b2 c.2 pid _ hib2 hpos hpid2
        · exact hib2
    split
    · split
      · exact hir
      · exact hir
    · exact hir
  · rw [if_neg hg]
    exact hb

theorem inv_mapCards (b : Board) (f : String → String) (hb : Inv b) :
    Inv (mapCards b f).2 := by
  obtain ⟨h1, h2, h3, h4⟩ := hb
  have hsnd : (mapCards b f).2 = { b with cards := b.cards.map fun c => c.map f } := by
    unfold mapCards
    rfl
  rw [hsnd]
  refine ⟨?_, h2, h3, ?_⟩
  · show (b.cards.map fun c => c.map f).length = b.rows * b.columns
    rw [List.length_map]
    exact h1
  · intro i q h
    obtain ⟨hf, hc, hl⟩ := h4 i q h
    refine ⟨hf, ?_, hl⟩
    show (b.cards.map fun c => c.map f).getD i none ≠ none
    have := getD_map_general (fun c : Option String => c.map f) b.cards i none
    simp only [Option.map_none'] at this
    rw [this]
    intro hcontra
    exact hc (Option.map_eq_none'.mp hcontra)

theorem inv_parse (content : String) (b : Board) (h : parseFromFile content = .ok b) :
    Inv b := by
  simp only [parseFromFile] at h
  split at h
  · cases h
  · split at h
    · cases h
    · split at h
      · cases h
      · rename_i rows columns heq
        split at h
        · cases h
        · split at h
          · cases h
          · split at h
            · split at h
              · rename_i hcount hvalid hrep
                injection h with h
                subst h
                refine ⟨?_, ?_, ?_, ?_⟩
                · show (List.map some _).length = rows * columns
                  rw [List.length_map]
                  omega
                · exact List.length_replicate _ _
                · exact List.length_replicate _ _
                · intro i q hq
                  rw [show (List.replicate (rows * columns) (none : Option String)).getD i none
                      = none from getD_replicate_self _ _ _] at hq
                  cases hq
              · cases h
            · cases h

/-- Shared lemma: every reachable `part_001` board state satisfies `Inv`:
the arrays have the grid's size, and a controlled cell is face up, non-empty,
and controlled by a player present in the player table. -/
theorem reachable_inv (b : Board) (h : Reachable b) : Inv b := by
  induction h with
  | parsed content b hp => exact inv_parse content b hp
  | flip b pid row col _ ih => exact inv_flipCard b pid row col ih
  | mapped b f _ ih => exact inv_mapCards b f ih

end Part001

/-! ## String spot helpers -/

namespace ScrambleUtil

theorem my_append_head (v : String) : ("my " ++ v).data.head? = some 'm' := by
  rw [String.data_append]
  rfl

theorem up_append_head (c : String) : ("up " ++ c).data.head? = some 'u' := by
  rw [String.data_append]
  rfl

theorem none_ne_my_append (v : String) : "none" ≠ "my " ++ v := by
  intro h
  have hd := congrArg (fun s : String => s.data.head?) h
  simp only [my_append_head] at hd
  exact absurd hd (by decide)

theorem down_ne_my_append (v : String) : "down" ≠ "my " ++ v := by
  intro h
  have hd := congrArg (fun s : String => s.data.head?) h
  simp only [my_append_head] at hd
  exact absurd hd (by decide)

theorem up_append_ne_my_append (c v : String) : "up " ++ c ≠ "my " ++ v := by
  intro h
  have hd := congrArg (fun s : String => s.data.head?) h
  simp only [up_append_head, my_append_head] at hd
  exact absurd hd (by decide)

end ScrambleUtil

/-- C10: a `look` by a player ID absent from the player table (one that has
never flipped) marks no spot `my`: in `board.ts` the controlled set defaults
to empty, and in `part_001` no reachable state has a cell whose controller
is missing from the player table.  Both view operations are embedded as pure
functions of the state, as the source performs no writes in them. -/
theorem c10_fresh_player_sees_no_my_spot :
    (∀ (b : BoardTs.Board) (pid : String) (i : Nat),
      BoardTs.lookupCtl b.playerState pid = none →
      ¬ ∃ v, BoardTs.spotAt b pid i = "my " ++ v) ∧
    (∀ (b : Part001.Board) (pid : String) (i : Nat),
      Part001.Reachable b → Part001.lookupPS b.playerStates pid = none →
      ¬ ∃ v, Part001.spotAt b pid i = "my " ++ v) := by
  constructor
  · rintro b pid i hl ⟨v, hv⟩
    unfold BoardTs.spotAt at hv
    split at hv
    · exact ScrambleUtil.none_ne_my_append v hv
    · split at hv
      · exact ScrambleUtil.down_ne_my_append v hv
      · split at hv
        · rename_i hmem
          rw [show BoardTs.controlledOf b pid = (BoardTs.lookupCtl b.playerState pid).getD []
              from rfl, hl] at hmem
          simp at hmem
        · exact ScrambleUtil.up_append_ne_my_append _ v hv
  · rintro b pid i hr hl ⟨v, hv⟩
    unfold Part001.spotAt at hv
    split at hv
    · exact ScrambleUtil.none_ne_my_append v hv
    · split at hv
      · exact ScrambleUtil.down_ne_my_append v hv
      · split at hv
        · rename_i hctl
          have hinv := Part001.reachable_inv b hr
          obtain ⟨-, -, hsome⟩ := hinv.2.2.2 i pid hctl
          rw [hl] at hsome
          cases hsome
        · exact ScrambleUtil.up_append_ne_my_append _ v hv

/-- C10 witness: the theorem applied to the concrete parsed boards and the
fresh player `zoe`. -/
theorem c10_fresh_player_witness :
    (¬ ∃ v, BoardTs.spotAt Fixtures.tsAB "zoe" 0 = "my " ++ v) ∧
    (¬ ∃ v, Part001.spotAt Fixtures.p1A "zoe" 0 = "my " ++ v) :=
  ⟨c10_fresh_player_sees_no_my_spot.1 Fixtures.tsAB "zoe" 0 (by decide),
   c10_fresh_player_sees_no_my_spot.2 Fixtures.p1A "zoe" 0
     (Part001.Reachable.parsed "1x1\nA" Fixtures.p1A (by decide)) (by decide)⟩

/-! ## `part_001` rep-check interface -/

namespace Part001

open ScrambleUtil

theorem checkRep_eq_true_iff (b : Board) :
    checkRep b = true ↔
      0 < b.rows ∧ 0 < b.columns ∧
      b.cards.length = b.rows * b.columns ∧ b.faceUp.length = b.rows * b.columns ∧
      b.controlledBy.length = b.rows * b.columns ∧
      (∀ i < b.rows * b.columns, cellOk b i = true) ∧
      (∀ e ∈ b.playerStates, e.2.currentCards.length ≤ 2) := by
  simp [checkRep, List.all_eq_true, Bool.and_eq_true, decide_eq_true_eq, List.mem_range,
    beq_iff_eq, and_assoc]

theorem cellOk_congr (b b' : Board) (i : Nat)
    (hc : b'.cards.getD i none = b.cards.getD i none)
    (hf : b'.faceUp.getD i false = b.faceUp.getD i false)
    (hk : b'.controlledBy.getD i none = b.controlledBy.getD i none) :
    cellOk b' i = cellOk b i := by
  unfold cellOk
  rw [hc, hf, hk]

theorem cellOk_controlled (b : Board) (i : Nat) (h : cellOk b i = true)
    (hc : b.controlledBy.getD i none ≠ none) :
    b.faceUp.getD i false = true ∧ b.cards.getD i none ≠ none := by
  unfold cellOk at h
  rcases hctl : b.controlledBy.getD i none with _ | q
  · exact absurd hctl hc
  · rw [hctl] at h
    simp only [Bool.and_eq_true, Bool.or_eq_true, beq_iff_eq] at h
    rcases h.2 with h2 | h2
    · cases h2
    · obtain ⟨hf, hcd⟩ := h2
      refine ⟨hf, ?_⟩
      simp only [Bool.not_eq_true', beq_eq_false_iff_ne, ne_eq] at hcd
      exact hcd

theorem cellOk_value (b : Board) (i : Nat) (v : String) (h : cellOk b i = true)
    (hv : b.cards.getD i none = some v) : validCardValue v = true := by
  unfold cellOk at h
  rw [hv] at h
  simp only [Bool.and_eq_true] at h
  exact h.1

theorem cellOk_intro (b : Board) (i : Nat)
    (h1 : ∀ v, b.cards.getD i none = some v → validCardValue v = true)
    (h2 : b.cards.getD i none = none →
      b.faceUp.getD i false = false ∧ b.controlledBy.getD i none = none)
    (h3 : b.controlledBy.getD i none ≠ none →
      b.faceUp.getD i false = true ∧ b.cards.getD i none ≠ none) :
    cellOk b i = true := by
  unfold cellOk
  rcases hc : b.cards.getD i none with _ | v
  · obtain ⟨hf, hctl⟩ := h2 hc
    simp only [hf, hctl]
    rfl
  · have hv := h1 v hc
    rcases hctl : b.controlledBy.getD i none with _ | q
    · simp only [hv, hctl]
      rfl
    · have h3' := h3 (by rw [hctl]; exact fun h => by cases h)
      simp only [hv, hctl, h3'.1]
      rfl

theorem checkRep_writePS (b : Board) (pid : String) (ps : PlayerState)
    (h : checkRep b = true) (hlen : ps.currentCards.length ≤ 2) :
    checkRep (writePS b pid ps) = true := by
  rw [checkRep_eq_true_iff] at h ⊢
  obtain ⟨h1, h2, h3, h4, h5, h6, h7⟩ := h
  refine ⟨h1, h2, h3, h4, h5, ?_, ?_⟩
  · intro i hi
    rw [cellOk_congr b (writePS b pid ps) i rfl rfl rfl]
    exact h6 i hi
  · intro e he
    rcases mem_setPS b.playerStates pid ps e he with hm | hm
    · exact h7 e hm
    · rw [hm]
      exact hlen

theorem checkRep_match_update (b : Board) (position : Nat) (pid : String) (ps' : PlayerState)
    (h : checkRep b = true) (hpos : position < b.rows * b.columns)
    (hcard : b.cards.getD position none ≠ none)
    (hlen2 : ps'.currentCards.length ≤ 2) :
    checkRep (writePS (assignControl (turnUp b position) position pid) pid ps') = true := by
  have hbase := (checkRep_eq_true_iff b).mp h
  obtain ⟨h1, h2, h3, h4, h5, h6, h7⟩ := hbase
  refine checkRep_writePS _ pid ps' ?_ hlen2
  rw [checkRep_eq_true_iff]
  have hrows : (assignControl (turnUp b position) position pid).rows = b.rows := by
    show (turnUp b position).rows = b.rows
    exact turnUp_rows b position
  have hcols : (assignControl (turnUp b position) position pid).columns = b.columns := by
    show (turnUp b position).columns = b.columns
    exact turnUp_columns b position
  have hcards : (assignControl (turnUp b position) position pid).cards = b.cards := by
    show (turnUp b position).cards = b.cards
    exact turnUp_cards b position
  have hfl : (assignControl (turnUp b position) position pid).faceUp = (turnUp b position).faceUp :=
    rfl
  have hkl : (assignControl (turnUp b position) position pid).controlledBy =
      (turnUp b position).controlledBy.set position (some pid) := by
    show (turnUp b position).controlledBy.set position (some pid) =
      (turnUp b position).controlledBy.set position (some pid)
    rfl
  refine ⟨by rw [hrows]; exact h1, by rw [hcols]; exact h2, ?_, ?_, ?_, ?_, ?_⟩
  · rw [hcards, hrows, hcols]
    exact h3
  · rw [hfl, hrows, hcols, turnUp_faceUp_length]
    exact h4
  · rw [hkl, hrows, hcols, List.length_set, turnUp_controlledBy]
    exact h5
  · intro i hi
    rw [hrows, hcols] at hi
    by_cases hip : position = i
    · subst hip
      refine cellOk_intro _ position ?_ ?_ ?_
      · intro v hv
        rw [hcards] at hv
        exact cellOk_value b position v (h6 position hpos) hv
      · intro hv
        rw [hcards] at hv
        exact absurd hv hcard
      · intro _
        constructor
        · rw [hfl]
          refine turnUp_faceUp_self b position ?_
          rw [h4]
          exact hpos
        · rw [hcards]
          exact hcard
    · rw [cellOk_congr b _ i ?_ ?_ ?_]
      · exact h6 i hi
      · rw [hcards]
      · rw [hfl, turnUp_faceUp_ne b position i hip]
      · rw [hkl, getD_set_ne _ position i _ _ hip, turnUp_controlledBy]
  · intro e he
    rw [show (assignControl (turnUp b position) position pid).playerStates = b.playerStates
        from turnUp_playerStates b position] at he
    exact h7 e he

end Part001

namespace Part001

open ScrambleUtil

/-- On a Holding-one state whose second flip hits a present, uncontrolled,
value-matching cell, `secondCard` takes the rule 2-D branch: it marks the
target controlled, records the matched pair as the `previous` move and
empties `currentCards`. -/
theorem flipCard_second_step (b : Board) (ps : PlayerState) (pid : String) (row col : Nat)
    (hg : row < b.rows ∧ col < b.columns)
    (hps : lookupPS b.playerStates pid = some ps) (h1 : ps.currentCards.length = 1) :
    flipCard b pid row col =
      (let r := secondCard (writePS (writePS b pid ps) pid ps) ps pid (row * b.columns + col)
       if r.1 = .ok then
         if checkRep r.2 then (.ok, r.2) else (.err .assertionFailed, r.2)
       else r) := by
  unfold flipCard
  rw [if_pos hg]
  simp only [hps, Option.getD_some, h1]
  norm_num

theorem secondCard_match_spec (b : Board) (ps : PlayerState) (pid : String)
    (position f : Nat) (hcur : ps.currentCards = [f])
    (hcard : b.cards.getD position none ≠ none)
    (hctl : b.controlledBy.getD position none = none)
    (heq : b.cards.getD f none = b.cards.getD position none) :
    secondCard b ps pid position =
      (.ok, writePS (assignControl (turnUp b position) position pid) pid
        { previousCards := [f, position], previousMatched := true, currentCards := [] }) := by
  unfold secondCard
  rw [if_neg hcard, if_neg (by rw [hctl]; exact fun h => h rfl)]
  dsimp only
  rw [hcur]
  simp only [List.getD_cons_zero]
  rw [turnUp_cards]
  rw [if_pos heq]

end Part001

namespace Part001

/-- C3 (amended): in `part_001`, when a Holding-one player's second flip
matches their first card, the flip returns success with the player's
`currentCards` empty and the pair recorded as a matched `previous` move, and
both cells are face Up — but both cells KEEP the player as their
`controlledBy` controller until the player's next move's cleanup (the spec's
"no controller" does not hold; see the counterexample). -/
theorem c3_part001_match_flip_records_pair (b : Part001.Board) (pid : String)
    (row col f : Nat) (ps : Part001.PlayerState)
    (hrow : row < b.rows) (hcol : col < b.columns)
    (hps : lookupPS b.playerStates pid = some ps)
    (hcur : ps.currentCards = [f])
    (hcard : b.cards.getD (row * b.columns + col) none ≠ none)
    (hctl : b.controlledBy.getD (row * b.columns + col) none = none)
    (hctlf : b.controlledBy.getD f none = some pid)
    (heq : b.cards.getD f none = b.cards.getD (row * b.columns + col) none)
    (hrep : checkRep b = true) :
    (flipCard b pid row col).1 = .ok ∧
    lookupPS (flipCard b pid row col).2.playerStates pid =
      some ⟨[f, row * b.columns + col], true, []⟩ ∧
    (flipCard b pid row col).2.controlledBy.getD (row * b.columns + col) none = some pid ∧
    (flipCard b pid row col).2.controlledBy.getD f none = some pid ∧
    (flipCard b pid row col).2.faceUp.getD (row * b.columns + col) false = true ∧
    (flipCard b pid row col).2.faceUp.getD f false = true := by
  have hbase := (checkRep_eq_true_iff b).mp hrep
  obtain ⟨hr1, hr2, hl1, hl2, hl3, hcell, hpl⟩ := hbase
  have hfp : row * b.columns + col ≠ f := by
    intro hh
    rw [hh, hctlf] at hctl
    cases hctl
  have hposlt : row * b.columns + col < b.rows * b.columns := by
    calc row * b.columns + col < row * b.columns + b.columns := by omega
      _ = (row + 1) * b.columns := by ring
      _ ≤ b.rows * b.columns := Nat.mul_le_mul_right _ hrow
  have hflt : f < b.rows * b.columns := by
    rw [← hl3]
    exact ScrambleUtil.lt_length_of_getD_ne b.controlledBy none
      (by rw [hctlf]; exact fun h => by cases h)
  have hfup : b.faceUp.getD f false = true :=
    (cellOk_controlled b f (hcell f hflt) (by rw [hctlf]; exact fun h => by cases h)).1
  -- reduce flipCard to the secondCard call
  rw [flipCard_second_step b ps pid row col ⟨hrow, hcol⟩ hps (by rw [hcur]; rfl)]
  simp only []
  rw [secondCard_match_spec (writePS (writePS b pid ps) pid ps) ps pid
    (row * b.columns + col) f hcur hcard hctl heq]
  have hrep2 : checkRep (writePS (writePS b pid ps) pid ps) = true := by
    refine checkRep_writePS _ pid ps (checkRep_writePS _ pid ps hrep ?_) ?_ <;>
      rw [hcur] <;> simp
  have hW : checkRep
      (writePS (assignControl
        (turnUp (writePS (writePS b pid ps) pid ps) (row * b.columns + col))
        (row * b.columns + col) pid) pid
        ⟨[f, row * b.columns + col], true, []⟩) = true := by
    refine checkRep_match_update _ _ pid _ hrep2 hposlt hcard ?_
    simp
  rw [if_pos rfl, if_pos hW]
  refine ⟨rfl, ?_, ?_, ?_, ?_, ?_⟩
  · show lookupPS (setPS _ pid _) pid = _
    rw [lookupPS_setPS, if_pos rfl]
  · show ((turnUp (writePS (writePS b pid ps) pid ps)
      (row * b.columns + col)).controlledBy.set (row * b.columns + col)
        (some pid)).getD (row * b.columns + col) none = some pid
    rw [turnUp_controlledBy]
    refine ScrambleUtil.getD_set_self _ _ _ _ ?_
    show (row * b.columns + col) < b.controlledBy.length
    rw [hl3]
    exact hposlt
  · show ((turnUp (writePS (writePS b pid ps) pid ps)
      (row * b.columns + col)).controlledBy.set (row * b.columns + col)
        (some pid)).getD f none = some pid
    rw [turnUp_controlledBy]
    rw [ScrambleUtil.getD_set_ne _ _ _ _ _ hfp]
    exact hctlf
  · show (turnUp (writePS (writePS b pid ps) pid ps)
      (row * b.columns + col)).faceUp.getD (row * b.columns + col) false = true
    refine turnUp_faceUp_self _ _ ?_
    show (row * b.columns + col) < b.faceUp.length
    rw [hl2]
    exact hposlt
  · show (turnUp (writePS (writePS b pid ps) pid ps)
      (row * b.columns + col)).faceUp.getD f false = true
    rw [turnUp_faceUp_ne _ _ _ hfp]
    exact hfup

end Part001

/-- C3 witness: the amended theorem applied to the concrete board where
`alice` holds cell 0 of a matching pair and flips cell 1. -/
theorem c3_part001_match_flip_witness :
    (Part001.flipCard
      { rows := 1, columns := 2, cards := [some "A", some "A"]
        faceUp := [true, false], controlledBy := [some "alice", none]
        playerStates := [("alice", ⟨[], false, [0]⟩)] } "alice" 0 1).1 = .ok ∧
    (Part001.flipCard
      { rows := 1, columns := 2, cards := [some "A", some "A"]
        faceUp := [true, false], controlledBy := [some "alice", none]
        playerStates := [("alice", ⟨[], false, [0]⟩)] } "alice" 0 1).2.controlledBy.getD 1 none =
      some "alice" := by
  have h := Part001.c3_part001_match_flip_records_pair
    { rows := 1, columns := 2, cards := [some "A", some "A"]
      faceUp := [true, false], controlledBy := [some "alice", none]
      playerStates := [("alice", ⟨[], false, [0]⟩)] } "alice" 0 1 0 ⟨[], false, [0]⟩
    (by decide) (by decide) (by decide) (by decide) (by decide) (by decide) (by decide)
    (by decide) (by decide)
  exact ⟨h.1, h.2.2.1⟩

/-- The successful result of `board.ts`'s `map`: every card value rewritten
through the cache (`f` applied once per distinct value), faces kept, change
counter bumped, player state untouched. -/
theorem mapTs_ok_shape (b : BoardTs.Board) (pid : String) (f : String → String)
    (b' : BoardTs.Board) (h : BoardTs.map b pid f = .ok b') :
    b' = { b with
      cards := b.cards.map fun sp => sp.map fun sp => { sp with card := f sp.card }
      boardVersion := b.boardVersion + 1 } := by
  unfold BoardTs.map at h
  split at h
  · cases h
  · split at h
    · dsimp only [BoardTs.notifyChange] at h
      split at h
      · injection h with h
        exact h.symm
      · cases h
    · cases h

/-- C6: after a successful `map`, cells that held equal values hold equal
values (every distinct value is transformed once through the cache), and
each cell's face and controller are preserved — in `part_001` the `faceUp`
and `controlledBy` arrays and the player table are untouched, and in
`board.ts` each card keeps its `state` and the player table is untouched. -/
theorem c6_map_pairwise_consistent :
    (∀ (b : Part001.Board) (f : String → String) (i j : Nat) (v w : String),
      (Part001.mapCards b f).1 = none →
      b.cards.getD i none = some v → b.cards.getD j none = some w → v = w →
      (Part001.mapCards b f).2.cards.getD i none = some (f v) ∧
      (Part001.mapCards b f).2.cards.getD j none = some (f w) ∧
      (Part001.mapCards b f).2.cards.getD i none = (Part001.mapCards b f).2.cards.getD j none ∧
      (Part001.mapCards b f).2.faceUp = b.faceUp ∧
      (Part001.mapCards b f).2.controlledBy = b.controlledBy ∧
      (Part001.mapCards b f).2.playerStates = b.playerStates) ∧
    (∀ (b : BoardTs.Board) (pid : String) (f : String → String) (b' : BoardTs.Board)
      (i j : Nat) (spi spj : BoardTs.CardSpace),
      BoardTs.map b pid f = .ok b' →
      b.cards.getD i none = some spi → b.cards.getD j none = some spj →
      spi.card = spj.card →
      b'.cards.getD i none = some ⟨f spi.card, spi.state⟩ ∧
      b'.cards.getD j none = some ⟨f spj.card, spj.state⟩ ∧
      (b'.cards.getD i none).map (fun sp => sp.card) =
        (b'.cards.getD j none).map (fun sp => sp.card) ∧
      b'.playerState = b.playerState) := by
  constructor
  · intro b f i j v w _ hi hj hvw
    have hsnd : (Part001.mapCards b f).2 =
        { b with cards := b.cards.map fun c => c.map f } := rfl
    have hmap : ∀ k : Nat,
        (b.cards.map fun c => c.map f).getD k none = (b.cards.getD k none).map f := by
      intro k
      have := Part001.getD_map_general (fun c : Option String => c.map f) b.cards k none
      simpa using this
    rw [hsnd]
    refine ⟨?_, ?_, ?_, rfl, rfl, rfl⟩
    · show (b.cards.map fun c => c.map f).getD i none = some (f v)
      rw [hmap i, hi]
      rfl
    · show (b.cards.map fun c => c.map f).getD j none = some (f w)
      rw [hmap j, hj]
      rfl
    · show (b.cards.map fun c => c.map f).getD i none =
        (b.cards.map fun c => c.map f).getD j none
      rw [hmap i, hmap j, hi, hj, hvw]
  · intro b pid f b' i j spi spj h hi hj hcard
    have hb' := mapTs_ok_shape b pid f b' h
    subst hb'
    have hmap : ∀ k : Nat,
        (b.cards.map fun sp => sp.map fun sp => { sp with card := f sp.card }).getD k none =
          (b.cards.getD k none).map fun sp => { sp with card := f sp.card } := by
      intro k
      have := Part001.getD_map_general
        (fun sp : Option BoardTs.CardSpace => sp.map fun sp => { sp with card := f sp.card })
        b.cards k none
      simpa using this
    refine ⟨?_, ?_, ?_, rfl⟩
    · show (b.cards.map fun sp => sp.map fun sp => { sp with card := f sp.card }).getD i none =
        some ⟨f spi.card, spi.state⟩
      rw [hmap i, hi]
      rfl
    · show (b.cards.map fun sp => sp.map fun sp => { sp with card := f sp.card }).getD j none =
        some ⟨f spj.card, spj.state⟩
      rw [hmap j, hj]
      rfl
    · show ((b.cards.map fun sp => sp.map fun sp => { sp with card := f sp.card }).getD i
          none).map (fun sp => sp.card) =
        ((b.cards.map fun sp => sp.map fun sp => { sp with card := f sp.card }).getD j
          none).map (fun sp => sp.card)
      rw [hmap i, hmap j, hi, hj]
      show some (f spi.card) = some (f spj.card)
      rw [hcard]

/-- C6 witness: the theorem applied to concrete matching pairs with the
transformer appending `z`. -/
theorem c6_map_pairwise_witness :
    ((Part001.mapCards Fixtures.p2AA fun v => v ++ "z").2.cards.getD 0 none =
      (Part001.mapCards Fixtures.p2AA fun v => v ++ "z").2.cards.getD 1 none) ∧
    ((Except.ok
        { cards := [some ⟨"Az", .down⟩, some ⟨"Az", .down⟩], rows := 1, cols := 2
          playerState := [], boardVersion := 1 } :
        Except BoardTs.FlipErr BoardTs.Board) =
      BoardTs.map Fixtures.tsAA "alice" (fun v => v ++ "z") →
      ({ cards := [some ⟨"Az", .down⟩, some ⟨"Az", .down⟩], rows := 1, cols := 2
         playerState := [], boardVersion := 1 } : BoardTs.Board).cards.getD 0 none =
        some ⟨"Az", .down⟩) := by
  constructor
  · exact (c6_map_pairwise_consistent.1 Fixtures.p2AA (fun v => v ++ "z") 0 1 "A" "A"
      (by decide) (by decide) (by decide) rfl).2.2.1
  · intro h
    exact (c6_map_pairwise_consistent.2 Fixtures.tsAA "alice" (fun v => v ++ "z") _ 0 1
      ⟨"A", .down⟩ ⟨"A", .down⟩ h.symm (by decide) (by decide) rfl).1

/-! ## Line-joining and trimming lemmas -/

namespace ScrambleUtil

theorem joinLines_singleton (l : List Char) : joinLines [l] = l := rfl

theorem joinLines_cons₂ (a b : List Char) (t : List (List Char)) :
    joinLines (a :: b :: t) = a ++ '\n' :: joinLines (b :: t) := rfl

theorem getLast?_append_right (l₁ l₂ : List α) (h : l₂ ≠ []) :
    (l₁ ++ l₂).getLast? = l₂.getLast? :=
  List.getLast?_append_of_ne_nil _ h

theorem joinLines_ne_nil (ls : List (List Char)) (l : List Char) (hl : l ≠ []) :
    joinLines (ls ++ [l]) ≠ [] := by
  cases ls with
  | nil => exact hl
  | cons a rest =>
    rw [show (a :: rest) ++ [l] = a :: (rest ++ [l]) from rfl]
    cases hrest : rest ++ [l] with
    | nil => exact absurd hrest (by simp)
    | cons b t =>
      rw [joinLines_cons₂]
      intro hcontra
      exact absurd (congrArg List.length hcontra) (by simp)

theorem getLast?_cons_of_ne_nil (a : α) (l : List α) (h : l ≠ []) :
    (a :: l).getLast? = l.getLast? := by
  cases l with
  | nil => exact absurd rfl h
  | cons b t => exact List.getLast?_cons_cons

theorem joinLines_cons_of_ne_nil (a : List Char) (t : List (List Char)) (h : t ≠ []) :
    joinLines (a :: t) = a ++ '\n' :: joinLines t := by
  cases t with
  | nil => exact absurd rfl h
  | cons b u => exact joinLines_cons₂ a b u

theorem joinLines_getLast (ls : List (List Char)) (l : List Char) (hl : l ≠ []) :
    (joinLines (ls ++ [l])).getLast? = l.getLast? := by
  induction ls with
  | nil => rfl
  | cons a rest ih =>
    rw [show (a :: rest) ++ [l] = a :: (rest ++ [l]) from rfl]
    rw [joinLines_cons_of_ne_nil a (rest ++ [l]) (by simp)]
    rw [getLast?_append_right a _ (fun h => by cases h)]
    rw [getLast?_cons_of_ne_nil _ _ (joinLines_ne_nil rest l hl)]
    exact ih

theorem foldl_append_data (l : List String) (acc : String) :
    (l.foldl (· ++ ·) acc).data = acc.data ++ (l.map String.data).flatten := by
  induction l generalizing acc with
  | nil => simp
  | cons s t ih =>
    rw [List.foldl_cons, ih, List.map_cons, List.flatten_cons, String.data_append,
      List.append_assoc]

theorem join_data (l : List String) :
    (String.join l).data = (l.map String.data).flatten := by
  show (l.foldl (· ++ ·) "").data = _
  rw [foldl_append_data]
  rfl

theorem flatten_getLast_lf (ls : List (List Char))
    (h : ∀ l ∈ ls, l.getLast? = some '\n') (hne : ls ≠ []) :
    ls.flatten.getLast? = some '\n' := by
  induction ls with
  | nil => exact absurd rfl hne
  | cons a rest ih =>
    rw [List.flatten_cons]
    cases hr : rest with
    | nil =>
      subst hr
      simp only [List.flatten_nil, List.append_nil]
      exact h a (List.mem_cons_self _ _)
    | cons b t =>
      subst hr
      have hrest := ih (fun l hl => h l (List.mem_cons_of_mem _ hl)) (by simp)
      rw [getLast?_append_right _ _ ?_]
      · exact hrest
      · intro hc
        rw [hc] at hrest
        cases hrest

theorem append_lf_getLast (s : String) : (s ++ "\n").data.getLast? = some '\n' := by
  rw [String.data_append]
  rw [getLast?_append_right _ _ (fun h => by cases h)]
  rfl

theorem no_ws_getLast_not_lf (l : List Char) (h : containsWsCh l = false) :
    l.getLast? ≠ some '\n' := by
  intro hc
  have hmem := List.mem_of_mem_getLast? hc
  unfold containsWsCh at h
  rw [List.any_eq_false] at h
  exact absurd (by decide : isWs '\n' = true) (by simpa using h '\n' hmem)

theorem tag_append_ne_nil (t v : String) (ht : t.data ≠ []) : (t ++ v).data ≠ [] := by
  rw [String.data_append]
  intro h
  exact ht (List.append_eq_nil.mp h).1

theorem tag_append_getLast (t v : String) (hv : containsWsCh v.data = false)
    (ht : t.data.getLast? ≠ some '\n') :
    (t ++ v).data.getLast? ≠ some '\n' := by
  rw [String.data_append]
  cases hvd : v.data with
  | nil =>
    rw [List.append_nil]
    exact ht
  | cons c u =>
    rw [hvd] at hv
    rw [getLast?_append_right _ _ (fun h => by cases h)]
    exact no_ws_getLast_not_lf _ hv

/-- The last character of `header.join(sep=LF over spots)` is the last
character of the final spot when every spot is non-empty. -/
theorem joinLines_spots_getLast (hd : List Char) (spots : List String)
    (hne : spots ≠ [])
    (hspot : ∀ s ∈ spots, s.data ≠ [] ∧ s.data.getLast? ≠ some '\n') :
    (joinLines (hd :: spots.map String.data)).getLast? ≠ some '\n' := by
  have hdsne : spots.map String.data ≠ [] := by
    intro h
    exact hne (List.map_eq_nil_iff.mp h)
  have hmem : (spots.map String.data).getLast hdsne ∈ spots.map String.data :=
    List.getLast_mem hdsne
  obtain ⟨s, hs, hseq⟩ := List.mem_map.mp hmem
  have hgne : (spots.map String.data).getLast hdsne ≠ [] := by
    rw [← hseq]
    exact (hspot s hs).1
  have hshape : hd :: spots.map String.data =
      (hd :: (spots.map String.data).dropLast) ++
        [(spots.map String.data).getLast hdsne] := by
    rw [List.cons_append, List.dropLast_append_getLast hdsne]
  rw [hshape, joinLines_getLast _ _ hgne, ← hseq]
  exact (hspot s hs).2

end ScrambleUtil

namespace BoardTs

open ScrambleUtil

theorem spotAt_data_ne_nil (b : Board) (pid : String) (i : Nat) :
    (spotAt b pid i).data ≠ [] := by
  unfold spotAt
  split
  · exact fun h => by cases h
  · split
    · exact fun h => by cases h
    · split
      · exact tag_append_ne_nil "my " _ (fun h => by cases h)
      · exact tag_append_ne_nil "up " _ (fun h => by cases h)

theorem spotAt_getLast_not_lf (b : Board) (pid : String) (i : Nat)
    (hwf : ∀ sp, b.cards.getD i none = some sp → containsWsCh sp.card.data = false) :
    (spotAt b pid i).data.getLast? ≠ some '\n' := by
  unfold spotAt
  split
  · exact by decide
  · rename_i sp hsp
    have hws := hwf sp hsp
    split
    · exact by decide
    · split
      · exact tag_append_getLast "my " _ hws (by decide)
      · exact tag_append_getLast "up " _ hws (by decide)

/-- `look` ends with the final spot's last character, never a line feed:
`spots.join('\n')` places no separator after the last entry. -/
theorem look_no_trailing_lf (b : Board) (pid : String) (hne : b.cards.length ≠ 0)
    (hwf : ∀ i sp, b.cards.getD i none = some sp → containsWsCh sp.card.data = false) :
    (look b pid).data.getLast? ≠ some '\n' := by
  unfold look
  show (joinLines (((toString b.rows ++ "x" ++ toString b.cols) ::
      (List.range b.cards.length).map fun i => spotAt b pid i).map String.data)).getLast? ≠
    some '\n'
  rw [List.map_cons]
  refine joinLines_spots_getLast _ _ ?_ ?_
  · intro h
    have := congrArg List.length h
    simp at this
    exact hne (by rw [this]; rfl)
  · intro s hs
    obtain ⟨i, _, hi_eq⟩ := List.mem_map.mp hs
    rw [← hi_eq]
    exact ⟨spotAt_data_ne_nil b pid i, spotAt_getLast_not_lf b pid i (fun sp hsp => hwf i sp hsp)⟩

end BoardTs

namespace Part001

open ScrambleUtil

/-- `getBoardState` always ends with a line feed: the loop appends `\n`
after every spot including the last. -/
theorem getBoardState_trailing_lf (b : Board) (pid : String) :
    (getBoardState b pid).data.getLast? = some '\n' := by
  unfold getBoardState
  rw [String.data_append]
  cases hL : (List.range b.cards.length).map fun i => spotAt b pid i ++ "\n" with
  | nil =>
    rw [show (String.join []).data = [] from rfl, List.append_nil]
    exact append_lf_getLast _
  | cons x t =>
    have hjoin : (String.join (x :: t)).data.getLast? = some '\n' := by
      rw [join_data]
      refine flatten_getLast_lf _ ?_ (by simp)
      intro l hl
      obtain ⟨s, hs_mem, hs_eq⟩ := List.mem_map.mp hl
      obtain ⟨i, _, hi_eq⟩ := List.mem_map.mp (by rw [← hL] at hs_mem; exact hs_mem)
      rw [← hs_eq, ← hi_eq]
      exact append_lf_getLast _
    rw [getLast?_append_right _ _ ?_]
    · exact hjoin
    · intro hc
      rw [hc] at hjoin
      cases hjoin

end Part001

namespace ScrambleUtil

theorem my_append_ne_lit (v : String) (lit : String) (hl : lit.data.head? ≠ some 'm') :
    "my " ++ v ≠ lit := by
  intro h
  apply hl
  rw [← h]
  exact my_append_head v

theorem up_append_ne_lit (c : String) (lit : String) (hl : lit.data.head? ≠ some 'u') :
    "up " ++ c ≠ lit := by
  intro h
  apply hl
  rw [← h]
  exact up_append_head c

end ScrambleUtil

namespace BoardTs

open ScrambleUtil

theorem ts_spotAt_none_iff (b : Board) (pid : String) (i : Nat) :
    (spotAt b pid i = "none") ↔ b.cards.getD i none = none := by
  constructor
  · intro h
    unfold spotAt at h
    split at h
    · assumption
    · split at h
      · exact absurd h (by decide)
      · split at h
        · exact absurd h (my_append_ne_lit _ "none" (by decide))
        · exact absurd h (up_append_ne_lit _ "none" (by decide))
  · intro h
    unfold spotAt
    rw [h]

theorem ts_spotAt_my_iff (b : Board) (pid : String) (i : Nat)
    (hup : i ∈ controlledOf b pid →
      ∃ sp, b.cards.getD i none = some sp ∧ sp.state = CardState.up) :
    (∃ v, spotAt b pid i = "my " ++ v) ↔ i ∈ controlledOf b pid := by
  constructor
  · rintro ⟨v, hv⟩
    unfold spotAt at hv
    split at hv
    · exact absurd hv (fun h => none_ne_my_append v h)
    · split at hv
      · exact absurd hv (fun h => down_ne_my_append v h)
      · split at hv
        · assumption
        · exact absurd hv (up_append_ne_my_append _ v)
  · intro hmem
    obtain ⟨sp, hsp, hst⟩ := hup hmem
    refine ⟨sp.card, ?_⟩
    unfold spotAt
    rw [hsp]
    show (if sp.state = CardState.down then "down"
      else if i ∈ controlledOf b pid then "my " ++ sp.card else "up " ++ sp.card) =
      "my " ++ sp.card
    rw [if_neg (by rw [hst]; exact fun h => by cases h), if_pos hmem]

end BoardTs

namespace Part001

open ScrambleUtil

theorem p1_spotAt_none_iff (b : Board) (pid : String) (i : Nat) :
    (spotAt b pid i = "none") ↔ b.cards.getD i none = none := by
  constructor
  · intro h
    unfold spotAt at h
    split at h
    · assumption
    · split at h
      · exact absurd h (by decide)
      · split at h
        · exact absurd h (my_append_ne_lit _ "none" (by decide))
        · exact absurd h (up_append_ne_lit _ "none" (by decide))
  · intro h
    unfold spotAt
    rw [h]

theorem p1_spotAt_my_iff (b : Board) (pid : String) (i : Nat)
    (hup : b.controlledBy.getD i none = some pid →
      b.faceUp.getD i false = true ∧ b.cards.getD i none ≠ none) :
    (∃ v, spotAt b pid i = "my " ++ v) ↔ b.controlledBy.getD i none = some pid := by
  constructor
  · rintro ⟨v, hv⟩
    unfold spotAt at hv
    split at hv
    · exact absurd hv (fun h => none_ne_my_append v h)
    · split at hv
      · exact absurd hv (fun h => down_ne_my_append v h)
      · split at hv
        · assumption
        · exact absurd hv (up_append_ne_my_append _ v)
  · intro hctl
    obtain ⟨hface, hcard⟩ := hup hctl
    rcases hc : b.cards.getD i none with _ | card
    · exact absurd hc hcard
    · refine ⟨card, ?_⟩
      unfold spotAt
      rw [hc]
      show (if b.faceUp.getD i false = false then "down"
        else if b.controlledBy.getD i none = some pid then "my " ++ card
        else "up " ++ card) = "my " ++ card
      rw [if_neg (by rw [hface]; exact fun h => by cases h), if_pos hctl]

end Part001

/-- C9 (amended): both variants print the dimension line and then one spot
per cell in row-major order, where a spot is `none` exactly when the cell is
Empty and starts with `my` exactly when the requesting player controls it;
`board.ts`'s `look` joins the spots with `\n` and has NO trailing line feed,
while `part_001`'s `getBoardState` terminates EVERY spot line with `\n`, so
its output ends with a line feed (see the counterexample). -/
theorem c9_look_format :
    (∀ (b : BoardTs.Board) (pid : String),
      b.cards.length ≠ 0 →
      (∀ i sp, b.cards.getD i none = some sp →
        ScrambleUtil.containsWsCh sp.card.data = false) →
      (BoardTs.look b pid).data.getLast? ≠ some '\n') ∧
    (∀ (b : Part001.Board) (pid : String),
      (Part001.getBoardState b pid).data.getLast? = some '\n') ∧
    (∀ (b : BoardTs.Board) (pid : String) (i : Nat),
      ((BoardTs.spotAt b pid i = "none") ↔ b.cards.getD i none = none) ∧
      ((i ∈ BoardTs.controlledOf b pid →
          ∃ sp, b.cards.getD i none = some sp ∧ sp.state = BoardTs.CardState.up) →
        ((∃ v, BoardTs.spotAt b pid i = "my " ++ v) ↔ i ∈ BoardTs.controlledOf b pid))) ∧
    (∀ (b : Part001.Board) (pid : String) (i : Nat),
      ((Part001.spotAt b pid i = "none") ↔ b.cards.getD i none = none) ∧
      ((b.controlledBy.getD i none = some pid →
          b.faceUp.getD i false = true ∧ b.cards.getD i none ≠ none) →
        ((∃ v, Part001.spotAt b pid i = "my " ++ v) ↔
          b.controlledBy.getD i none = some pid))) := by
  refine ⟨BoardTs.look_no_trailing_lf, Part001.getBoardState_trailing_lf, ?_, ?_⟩
  · intro b pid i
    exact ⟨BoardTs.ts_spotAt_none_iff b pid i, fun hup => BoardTs.ts_spotAt_my_iff b pid i hup⟩
  · intro b pid i
    exact ⟨Part001.p1_spotAt_none_iff b pid i, fun hup => Part001.p1_spotAt_my_iff b pid i hup⟩

/-- C9 witness: the format theorem applied to concrete boards — the parsed
two-cell `board.ts` board (no trailing LF), the parsed one-cell `part_001`
board (trailing LF), and one-cell boards where the requesting player does
control the cell (spots are `my`-marked exactly then). -/
theorem c9_look_format_witness :
    ((BoardTs.look Fixtures.tsAB "p").data.getLast? ≠ some '\n') ∧
    ((Part001.getBoardState Fixtures.p1A "p").data.getLast? = some '\n') ∧
    (¬ BoardTs.spotAt Fixtures.tsAB "p" 0 = "none") ∧
    (0 ∈ BoardTs.controlledOf
      { cards := [some ⟨"A", .up⟩], rows := 1, cols := 1
        playerState := [("p", [0])], boardVersion := 0 } "p") ∧
    (({ rows := 1, columns := 1, cards := [some "A"], faceUp := [true]
        controlledBy := [some "p"]
        playerStates := [("p", ⟨[], false, [0]⟩)] } : Part001.Board).controlledBy.getD 0 none =
      some "p") := by
  refine ⟨c9_look_format.1 Fixtures.tsAB "p" (by decide) ?_, ?_, ?_, ?_, ?_⟩
  · intro i sp h
    have hlen : i < 2 := ScrambleUtil.lt_length_of_getD_ne Fixtures.tsAB.cards none
      (by rw [h]; exact fun hh => by cases hh)
    rcases i with _ | _ | i
    · injection h with h
      subst h
      decide
    · injection h with h
      subst h
      decide
    · omega
  · exact c9_look_format.2.1 Fixtures.p1A "p"
  · intro h
    exact absurd ((c9_look_format.2.2.1 Fixtures.tsAB "p" 0).1.mp h) (by decide)
  · exact ((c9_look_format.2.2.1
      { cards := [some ⟨"A", .up⟩], rows := 1, cols := 1
        playerState := [("p", [0])], boardVersion := 0 } "p" 0).2
      (fun _ => ⟨⟨"A", .up⟩, by decide, rfl⟩)).mp ⟨"A", by decide⟩
  · exact ((c9_look_format.2.2.2
      { rows := 1, columns := 1, cards := [some "A"], faceUp := [true]
        controlledBy := [some "p"]
        playerStates := [("p", ⟨[], false, [0]⟩)] } "p" 0).2
      (fun _ => ⟨rfl, by decide⟩)).mp ⟨"A", by decide⟩
namespace ScrambleUtil

/-! ## Lemmas about `splitCh`, `trimCh` and `parseHeader` -/

theorem splitCh_cons_other (c : Char) (rest : List Char) (h1 : c ≠ '\n') (h2 : c ≠ '\r') :
    splitCh (c :: rest) =
      match splitCh rest with
      | [] => [[c]]
      | h :: t => (c :: h) :: t := by
  rw [splitCh.eq_def]
  split
  · simp_all
  · simp_all
  · simp_all
  · rename_i c' rest' hg1 hg2 heq
    injection heq with he1 he2
    subst he1
    subst he2
    rfl

theorem splitCh_no_break (l : List Char) (h : ∀ c ∈ l, c ≠ '\n' ∧ c ≠ '\r') :
    splitCh l = [l] := by
  induction l with
  | nil => rfl
  | cons c rest ih =>
    have hc := h c (List.mem_cons_self c rest)
    rw [splitCh_cons_other c rest hc.1 hc.2,
      ih (fun x hx => h x (List.mem_cons_of_mem c hx))]

theorem splitCh_append_line (l rest : List Char) (h : ∀ c ∈ l, c ≠ '\n' ∧ c ≠ '\r') :
    splitCh (l ++ '\n' :: rest) = l :: splitCh rest := by
  induction l with
  | nil => rfl
  | cons c t ih =>
    have hc := h c (List.mem_cons_self c t)
    rw [List.cons_append, splitCh_cons_other c _ hc.1 hc.2,
      ih (fun x hx => h x (List.mem_cons_of_mem c hx))]

theorem splitCh_joinLines (ls : List (List Char)) (hne : ls ≠ [])
    (h : ∀ l ∈ ls, ∀ c ∈ l, c ≠ '\n' ∧ c ≠ '\r') : splitCh (joinLines ls) = ls := by
  induction ls with
  | nil => exact absurd rfl hne
  | cons a t ih =>
    cases t with
    | nil => exact splitCh_no_break a (h a (List.mem_cons_self a []))
    | cons b u =>
      rw [joinLines_cons₂, splitCh_append_line a _ (h a (List.mem_cons_self _ _)),
        ih (List.cons_ne_nil b u) (fun l hl => h l (List.mem_cons_of_mem a hl))]

theorem splitLines_mkFile (ls : List String) (hne : ls ≠ [])
    (h : ∀ l ∈ ls, ∀ c ∈ l.data, c ≠ '\n' ∧ c ≠ '\r') : splitLines (mkFile ls) = ls := by
  show (splitCh (joinLines (ls.map String.data))).map (fun l => (⟨l⟩ : String)) = ls
  rw [splitCh_joinLines (ls.map String.data) (by simpa using hne) ?hh]
  case hh =>
    intro l hl c hcl
    rcases List.mem_map.mp hl with ⟨s, hs, rfl⟩
    exact h s hs c hcl
  rw [List.map_map]
  exact List.map_id ls

theorem joinLines_head (l : List Char) (rest : List (List Char)) (hl : l ≠ []) :
    (joinLines (l :: rest)).head? = l.head? := by
  cases rest with
  | nil => rfl
  | cons b u =>
    cases l with
    | nil => exact absurd rfl hl
    | cons a t => rfl

theorem digit_not_ws (c : Char) (h : isDigitCh c = true) : isWs c = false := by
  unfold isWs
  rw [decide_eq_false_iff_not]
  rintro (rfl | rfl | rfl | rfl | rfl | rfl) <;> exact absurd h (by decide)

theorem digit_ne_nl (c : Char) (h : isDigitCh c = true) : c ≠ '\n' ∧ c ≠ '\r' := by
  constructor <;> rintro rfl <;> exact absurd h (by decide)

theorem no_ws_all (l : List Char) (h : containsWsCh l = false) :
    ∀ c ∈ l, isWs c = false := by
  intro c hc
  have := List.any_eq_false.mp h c hc
  exact Bool.eq_false_iff.mpr this

theorem no_ws_no_nl (l : List Char) (h : containsWsCh l = false) :
    ∀ c ∈ l, c ≠ '\n' ∧ c ≠ '\r' := by
  intro c hc
  have hw := no_ws_all l h c hc
  constructor <;> rintro rfl <;> exact absurd hw (by decide)

theorem dropWhile_append_cases [DecidableEq α] (p : α → Bool) (l m : List α) :
    (l ++ m).dropWhile p = if l.dropWhile p = [] then m.dropWhile p else l.dropWhile p ++ m := by
  induction l with
  | nil => simp
  | cons a t ih => cases hp : p a <;> simp [List.dropWhile_cons, hp, ih]

theorem dropWhile_ws_replicate_append (k : Nat) (m : List Char) :
    (List.replicate k '\n' ++ m).dropWhile isWs = m.dropWhile isWs := by
  induction k with
  | zero => rfl
  | succ k ih =>
    have hws : isWs '\n' = true := by decide
    rw [List.replicate_succ, List.cons_append]
    simp [List.dropWhile_cons, hws, ih]

theorem dropWhile_ws_replicate (k : Nat) :
    (List.replicate k '\n').dropWhile isWs = [] := by
  have := dropWhile_ws_replicate_append k []
  simpa using this

theorem trimCh_eq_self (l : List Char)
    (h1 : ∀ c, l.head? = some c → isWs c = false)
    (h2 : ∀ c, l.getLast? = some c → isWs c = false) : trimCh l = l := by
  have hd : l.dropWhile isWs = l := by
    cases l with
    | nil => rfl
    | cons a t =>
      have := h1 a rfl
      simp [List.dropWhile_cons, this]
  have hr : l.reverse.dropWhile isWs = l.reverse := by
    cases hrev : l.reverse with
    | nil => rfl
    | cons a t =>
      have ha : l.getLast? = some a := by
        rw [← List.head?_reverse, hrev]
        rfl
      have := h2 a ha
      simp [List.dropWhile_cons, this]
  unfold trimCh
  rw [hd, hr, List.reverse_reverse]

theorem trimCh_append_replicate_lf (l : List Char) (k : Nat) :
    trimCh (l ++ List.replicate k '\n') = trimCh l := by
  unfold trimCh
  rw [dropWhile_append_cases]
  by_cases hl : l.dropWhile isWs = []
  · rw [if_pos hl, hl, dropWhile_ws_replicate]
  · rw [if_neg hl, List.reverse_append, List.reverse_replicate,
      dropWhile_ws_replicate_append]

theorem strTrim_append_newlines (s : String) (k : Nat) :
    strTrim (s ++ ⟨List.replicate k '\n'⟩) = strTrim s := by
  show (⟨trimCh (s ++ ⟨List.replicate k '\n'⟩).data⟩ : String) = ⟨trimCh s.data⟩
  rw [String.data_append]
  have hmk : (String.mk (List.replicate k '\n')).data = List.replicate k '\n' := rfl
  rw [hmk, trimCh_append_replicate_lf]

theorem strTrim_eq_self (s : String)
    (h1 : ∀ c, s.data.head? = some c → isWs c = false)
    (h2 : ∀ c, s.data.getLast? = some c → isWs c = false) : strTrim s = s := by
  show (⟨trimCh s.data⟩ : String) = s
  rw [trimCh_eq_self s.data h1 h2]

theorem parseHeader_shape (s : String) (r c : Nat) (h : parseHeader s = some (r, c)) :
    s.data ≠ [] ∧
    (∀ ch, s.data.head? = some ch → isDigitCh ch = true) ∧
    (∀ ch, s.data.getLast? = some ch → isDigitCh ch = true) ∧
    (∀ ch ∈ s.data, ch ≠ '\n' ∧ ch ≠ '\r') := by
  unfold parseHeader at h
  dsimp only at h
  split at h
  case h_2 => exact absurd h (by simp)
  case h_1 ds2 heq =>
    split at h
    case isFalse => exact absurd h (by simp)
    case isTrue hcond =>
      obtain ⟨hds, hds2, hall⟩ := hcond
      have hdata : s.data = s.data.takeWhile isDigitCh ++ 'x' :: ds2 := by
        conv_lhs => rw [← List.take_append_drop (s.data.takeWhile isDigitCh).length s.data]
        rw [heq]
        congr 1
        exact (List.prefix_iff_eq_take.mp (List.takeWhile_prefix _)).symm
      refine ⟨?_, ?_, ?_, ?_⟩
      · rw [hdata]
        simp
      · intro ch hch
        cases hds' : s.data.takeWhile isDigitCh with
        | nil => exact absurd hds' hds
        | cons d dt =>
          rw [hdata, hds'] at hch
          simp only [List.cons_append, List.head?_cons] at hch
          have hmem : d ∈ s.data.takeWhile isDigitCh := by
            rw [hds']
            exact List.mem_cons_self d dt
          have hd := List.mem_takeWhile_imp hmem
          injection hch with hch
          rw [← hch]
          exact hd
      · intro ch hch
        rw [hdata, getLast?_append_right _ _ (by simp),
          getLast?_cons_of_ne_nil 'x' ds2 hds2] at hch
        exact List.all_eq_true.mp hall ch (List.mem_of_mem_getLast? hch)
      · intro ch hch
        rw [hdata] at hch
        rcases List.mem_append.mp hch with hm | hm
        · exact digit_ne_nl ch (List.mem_takeWhile_imp hm)
        · rcases List.mem_cons.mp hm with rfl | hm2
          · exact ⟨by decide, by decide⟩
          · exact digit_ne_nl ch (List.all_eq_true.mp hall ch hm2)

theorem getD_mem_of_lt (l : List α) (i : Nat) (d : α) (h : i < l.length) :
    l.getD i d ∈ l := by
  rw [List.getD_eq_getElem l d h]
  exact List.getElem_mem h

end ScrambleUtil
namespace ScrambleUtil

theorem validCardValue_iff (v : String) :
    Part001.validCardValue v = true ↔ v.data ≠ [] ∧ containsWsCh v.data = false := by
  unfold Part001.validCardValue
  rw [decide_eq_true_iff]
  constructor
  · rintro ⟨h1, h2⟩
    exact ⟨h1, Bool.eq_false_iff.mpr h2⟩
  · rintro ⟨h1, h2⟩
    refine ⟨h1, ?_⟩
    rw [h2]
    simp

theorem cls_no_nl (cls : List String)
    (h : ∀ l ∈ cls, l.data = [] ∨ Part001.validCardValue l = true) :
    ∀ l ∈ cls, ∀ ch ∈ l.data, ch ≠ '\n' ∧ ch ≠ '\r' := by
  intro l hl ch hch
  rcases h l hl with hb | hv
  · rw [hb] at hch
    cases hch
  · exact no_ws_no_nl l.data ((validCardValue_iff l).mp hv).2 ch hch

theorem strTrim_mkFile (hdr : String) (cls : List String) (r c : Nat)
    (hh : parseHeader hdr = some (r, c))
    (hlastok : ∀ lst, cls.getLast? = some lst →
      lst.data ≠ [] ∧ containsWsCh lst.data = false) :
    strTrim (mkFile (hdr :: cls)) = mkFile (hdr :: cls) := by
  obtain ⟨hne, hhd, hlastd, hnl⟩ := parseHeader_shape hdr r c hh
  apply strTrim_eq_self
  · intro ch hch
    have hhead : (mkFile (hdr :: cls)).data.head? = hdr.data.head? :=
      joinLines_head hdr.data (cls.map String.data) hne
    rw [hhead] at hch
    exact digit_not_ws ch (hhd ch hch)
  · intro ch hch
    cases hcls : cls with
    | nil =>
      subst hcls
      have hlastf : (mkFile [hdr]).data.getLast? = hdr.data.getLast? := rfl
      rw [hlastf] at hch
      exact digit_not_ws ch (hlastd ch hch)
    | cons a t =>
      subst hcls
      obtain ⟨lst, hl⟩ := Option.isSome_iff_exists.mp
        (List.getLast?_isSome.mpr (List.cons_ne_nil a t))
      obtain ⟨hlne, hlws⟩ := hlastok lst hl
      have h2 : (a :: t).getLast (List.cons_ne_nil a t) = lst := by
        have hgl := List.getLast?_eq_getLast (a :: t) (List.cons_ne_nil a t)
        rw [hl] at hgl
        injection hgl with hgl
        exact hgl.symm
      have hdec : a :: t = (a :: t).dropLast ++ [lst] := by
        rw [← h2]
        exact (List.dropLast_append_getLast (List.cons_ne_nil a t)).symm
      have hdata : (mkFile (hdr :: a :: t)).data
          = joinLines ((hdr.data :: ((a :: t).dropLast.map String.data)) ++ [lst.data]) := by
        show joinLines ((hdr :: a :: t).map String.data) = _
        conv_lhs => rw [hdec]
        rw [List.map_cons, List.map_append, List.map_singleton, ← List.cons_append]
      rw [hdata, joinLines_getLast _ lst.data hlne] at hch
      exact no_ws_all lst.data hlws ch (List.mem_of_mem_getLast? hch)

end ScrambleUtil

namespace Part001

open ScrambleUtil

theorem checkRep_fresh (r c : Nat) (cls : List String) (hr : 0 < r) (hc : 0 < c)
    (hlen : cls.length = r * c) (hall : ∀ l ∈ cls, validCardValue l = true) :
    checkRep { rows := r, columns := c, cards := cls.map some,
               faceUp := List.replicate (r * c) false,
               controlledBy := List.replicate (r * c) none,
               playerStates := [] } = true := by
  rw [checkRep_eq_true_iff]
  refine ⟨hr, hc, by simp [hlen], by simp, by simp, ?_, by simp⟩
  intro i hi
  have hi' : i < r * c := hi
  have hlt : i < cls.length := by omega
  refine cellOk_intro _ i ?_ ?_ ?_
  · intro v hv
    have : (cls.map some).getD i none = some (cls.getD i "") :=
      getD_map some cls i none "" hlt
    rw [this] at hv
    injection hv with hv
    rw [← hv]
    exact hall _ (getD_mem_of_lt cls i "" hlt)
  · intro hv
    have : (cls.map some).getD i none = some (cls.getD i "") :=
      getD_map some cls i none "" hlt
    rw [this] at hv
    cases hv
  · intro hctl
    exact absurd (getD_replicate_self (r * c) none i) hctl

end Part001
namespace BoardTs

open ScrambleUtil

theorem validateCards_has_blank (cls : List String)
    (hb : ∃ l ∈ cls, (strTrim l).data = []) :
    ∃ e, validateCards cls = .error e := by
  induction cls with
  | nil =>
    rcases hb with ⟨l, hl, _⟩
    cases hl
  | cons a t ih =>
    by_cases ha : (strTrim a).data = []
    · exact ⟨"Card value cannot be empty", by simp [validateCards, ha]⟩
    · rcases hb with ⟨l, hl, hld⟩
      rcases List.mem_cons.mp hl with rfl | hmem
      · exact absurd hld ha
      · by_cases hw : containsWsCh (strTrim a).data = true
        · exact ⟨"Card value cannot contain whitespace", by simp [validateCards, ha, hw]⟩
        · obtain ⟨e, he⟩ := ih ⟨l, hmem, hld⟩
          exact ⟨e, by simp [validateCards, ha, hw, he]⟩

theorem parse_count_error (hdr : String) (cls : List String) (r c : Nat)
    (hh : parseHeader hdr = some (r, c)) (hr : 0 < r) (hc : 0 < c)
    (hvalid : ∀ l ∈ cls, Part001.validCardValue l = true)
    (hcount : cls.length ≠ r * c) :
    parseFromFile (mkFile (hdr :: cls)) =
      .error "Expected a different number of cards" := by
  obtain ⟨hne, hhd, hlastd, hnl⟩ := parseHeader_shape hdr r c hh
  have htrim := strTrim_mkFile hdr cls r c hh ?hlast
  case hlast =>
    intro lst hl
    exact (validCardValue_iff lst).mp (hvalid lst (List.mem_of_mem_getLast? hl))
  have hsplit := splitLines_mkFile (hdr :: cls) (List.cons_ne_nil _ _) ?hnl2
  case hnl2 =>
    intro l hl c2 hc2
    rcases List.mem_cons.mp hl with rfl | hm
    · exact hnl c2 hc2
    · exact cls_no_nl cls (fun x hx => Or.inr (hvalid x hx)) l hm c2 hc2
  simp only [parseFromFile, htrim, hsplit, hh]
  rw [if_neg (by omega : ¬(r = 0 ∨ c = 0)), if_pos hcount]

end BoardTs
namespace BoardTs

open ScrambleUtil

theorem parse_blank_error (hdr : String) (cls : List String) (r c : Nat)
    (hh : parseHeader hdr = some (r, c)) (hr : 0 < r) (hc : 0 < c)
    (hcls : ∀ l ∈ cls, l.data = [] ∨ Part001.validCardValue l = true)
    (hblank : ∃ l ∈ cls, l.data = [])
    (hlastok : ∀ lst, cls.getLast? = some lst → Part001.validCardValue lst = true) :
    ∃ e, parseFromFile (mkFile (hdr :: cls)) = .error e := by
  obtain ⟨hne, hhd, hlastd, hnl⟩ := parseHeader_shape hdr r c hh
  have htrim := strTrim_mkFile hdr cls r c hh ?hlast
  case hlast =>
    intro lst hl
    exact (validCardValue_iff lst).mp (hlastok lst hl)
  have hsplit := splitLines_mkFile (hdr :: cls) (List.cons_ne_nil _ _) ?hnl2
  case hnl2 =>
    intro l hl c2 hc2
    rcases List.mem_cons.mp hl with rfl | hm
    · exact hnl c2 hc2
    · exact cls_no_nl cls hcls l hm c2 hc2
  by_cases hcnt : cls.length = r * c
  · have hbb : ∃ l ∈ cls, (strTrim l).data = [] := by
      rcases hblank with ⟨l, hl, hld⟩
      refine ⟨l, hl, ?_⟩
      rw [show (strTrim l).data = trimCh l.data from rfl, hld]
      rfl
    obtain ⟨e, he⟩ := validateCards_has_blank cls hbb
    refine ⟨e, ?_⟩
    simp only [parseFromFile, htrim, hsplit, hh]
    rw [if_neg (by omega : ¬(r = 0 ∨ c = 0)), if_neg (fun hk => hk hcnt)]
    simp only [he]
  · refine ⟨"Expected a different number of cards", ?_⟩
    simp only [parseFromFile, htrim, hsplit, hh]
    rw [if_neg (by omega : ¬(r = 0 ∨ c = 0)), if_pos hcnt]

theorem parse_trailing_newlines (content : String) (k : Nat) :
    parseFromFile (content ++ ⟨List.replicate k '\n'⟩) = parseFromFile content := by
  unfold parseFromFile
  rw [ScrambleUtil.strTrim_append_newlines]

end BoardTs
namespace Part001

open ScrambleUtil

theorem parse_accepts_filtered (hdr : String) (cls : List String) (r c : Nat)
    (hh : parseHeader hdr = some (r, c)) (hr : 0 < r) (hc : 0 < c)
    (hcls : ∀ l ∈ cls, l.data = [] ∨ validCardValue l = true)
    (hfilter : (cls.filter fun l => l.data ≠ []).length = r * c) :
    parseFromFile (mkFile (hdr :: cls)) =
      .ok { rows := r, columns := c,
            cards := (cls.filter fun l => l.data ≠ []).map some,
            faceUp := List.replicate (r * c) false,
            controlledBy := List.replicate (r * c) none,
            playerStates := [] } := by
  obtain ⟨hne, hhd, hlastd, hnl⟩ := parseHeader_shape hdr r c hh
  have hsplit := splitLines_mkFile (hdr :: cls) (List.cons_ne_nil _ _) ?hnl2
  case hnl2 =>
    intro l hl c2 hc2
    rcases List.mem_cons.mp hl with rfl | hm
    · exact hnl c2 hc2
    · exact cls_no_nl cls hcls l hm c2 hc2
  have hpos : 0 < r * c := Nat.mul_pos hr hc
  have hfcons : (hdr :: cls).filter (fun l => l.data ≠ []) =
      hdr :: cls.filter (fun l => l.data ≠ []) :=
    List.filter_cons_of_pos (decide_eq_true hne)
  have hall : (cls.filter fun l => l.data ≠ []).all (fun l => validCardValue l) = true := by
    rw [List.all_eq_true]
    intro l hl
    have hm := List.mem_filter.mp hl
    rcases hcls l hm.1 with hb | hv
    · exact absurd hb (by simpa using hm.2)
    · exact hv
  have hrep := checkRep_fresh r c (cls.filter fun l => l.data ≠ []) hr hc hfilter
    (fun l hl => List.all_eq_true.mp hall l hl)
  simp only [parseFromFile, hsplit, hfcons, hh]
  rw [if_neg (by simp only [List.length_cons]; omega : ¬((hdr :: cls.filter fun l => l.data ≠ []).length < 2)),
    if_neg (by omega : ¬(r = 0 ∨ c = 0)),
    if_neg (fun hk => hk hfilter), if_pos hall, if_pos hrep]

end Part001
/-- C8: parse error conditions. For a file made of a valid `RxC` header line
followed by card lines: `board.ts`'s `parseFromFile` errors whenever the
number of card lines differs from `R*C` (part i) and whenever a blank line
sits strictly between the header and a non-blank last card line (part ii),
while trailing `'\n'` characters after the content never change its result
(part iii); but `part_001`'s `parseFromFile` filters out EVERY blank line
(interior ones included) before counting and accepts whenever the non-blank
card lines number exactly `R*C` (part iv), so the "any blank line between
header and the last card is a parse error" sentence holds only for
`board.ts`. -/
theorem c8_parse_blank_and_count_rules (hdr : String) (cls : List String) (r c : Nat)
    (hh : ScrambleUtil.parseHeader hdr = some (r, c)) (hr : 0 < r) (hc : 0 < c)
    (hcls : ∀ l ∈ cls, l.data = [] ∨ Part001.validCardValue l = true) :
    ((∀ l ∈ cls, Part001.validCardValue l = true) → cls.length ≠ r * c →
      BoardTs.parseFromFile (ScrambleUtil.mkFile (hdr :: cls)) =
        .error "Expected a different number of cards") ∧
    ((∃ l ∈ cls, l.data = []) →
      (∀ lst, cls.getLast? = some lst → Part001.validCardValue lst = true) →
      ∃ e, BoardTs.parseFromFile (ScrambleUtil.mkFile (hdr :: cls)) = .error e) ∧
    (∀ (content : String) (k : Nat),
      BoardTs.parseFromFile (content ++ ⟨List.replicate k '\n'⟩) =
        BoardTs.parseFromFile content) ∧
    ((cls.filter fun l => l.data ≠ []).length = r * c →
      Part001.parseFromFile (ScrambleUtil.mkFile (hdr :: cls)) =
        .ok { rows := r, columns := c,
              cards := (cls.filter fun l => l.data ≠ []).map some,
              faceUp := List.replicate (r * c) false,
              controlledBy := List.replicate (r * c) none,
              playerStates := [] }) :=
  ⟨fun hvalid hcount => BoardTs.parse_count_error hdr cls r c hh hr hc hvalid hcount,
   fun hblank hlastok => BoardTs.parse_blank_error hdr cls r c hh hr hc hcls hblank hlastok,
   fun content k => BoardTs.parse_trailing_newlines content k,
   fun hfilter => Part001.parse_accepts_filtered hdr cls r c hh hr hc hcls hfilter⟩

/-- C8 witness: on the file `"1x2\nA\n\nB"` (an interior blank line between
header and last card) `board.ts` errors while `part_001` accepts, and two
trailing line feeds do not change `board.ts`'s result on `"1x2\nA\nB"`. -/
theorem c8_parse_witness :
    (∃ e, BoardTs.parseFromFile (ScrambleUtil.mkFile ["1x2", "A", "", "B"]) = .error e) ∧
    BoardTs.parseFromFile ("1x2\nA\nB" ++ ⟨List.replicate 2 '\n'⟩) =
      BoardTs.parseFromFile "1x2\nA\nB" ∧
    Part001.parseFromFile (ScrambleUtil.mkFile ["1x2", "A", "", "B"]) =
      .ok { rows := 1, columns := 2, cards := [some "A", some "B"],
            faceUp := [false, false], controlledBy := [none, none],
            playerStates := [] } := by
  have H := c8_parse_blank_and_count_rules "1x2" ["A", "", "B"] 1 2
    (by decide) (by decide) (by decide) (by decide)
  refine ⟨H.2.1 (by decide) ?_, H.2.2.1 "1x2\nA\nB" 2, ?_⟩
  · intro lst hl
    have h2 := (show (some ("B" : String) = some lst) from hl)
    injection h2 with h2
    subst h2
    decide
  · exact H.2.2.2 (by decide)
